import Mathlib

/-!
Shallow embedding of the Nebula4X content validator
(src/tools/validate_content.py) and proofs about it.

Modelling conventions:
* Parsed JSON / Python values are the inductive type PyVal.  The Python
  json module maps null to None; a dictionary .get on a missing key also
  yields None, so PyVal.none stands for both JSON null and the absent-key
  sentinel, exactly as the Python code observes them.  Python bool is a
  subclass of int, which the source code compensates for with explicit
  isinstance(v, bool) exclusions; with separate constructors those
  composite tests collapse to constructor matches with the same outcome.
* Machine floats are modelled as rationals; the decimal literals the
  validator compares against (0.0, 0.001) and the comparisons in the
  claims are exact in both representations.  The textual rendering of a
  numeric bound inside an issue message uses the Rat ToString instance
  (Python would print 0.0 where this model prints 0); no claim inspects
  those characters.
* File reads are modelled by FileInput: a file is missing, fails to
  parse, or yields a parsed PyVal.  Filesystem existence checks for
  include entries are a Boolean oracle carried by World.
* Mutable issue lists become explicit state passing: every checker takes
  the issue list and returns the list with its findings appended.
* The recursive DFS of validate_tech_tree is given explicit fuel; fuel
  sufficiency (and hence termination of the Python recursion) is proved
  below.
-/

inductive PyVal where
  | none
  | bool (b : Bool)
  | int (n : Int)
  | float (q : ℚ)
  | str (s : String)
  | list (xs : List PyVal)
  | dict (entries : List (String × PyVal))

abbrev PyDict := List (String × PyVal)

/-- First-match association lookup; JSON object keys are unique after
parsing, so first-match agrees with Python dict lookup. -/
def lookupEntry : PyDict → String → Option PyVal
  | [], _ => Option.none
  | (k, v) :: rest, key => if key = k then Option.some v else lookupEntry rest key

/-- Python d.get(k, dflt): the stored value when the key is present
(JSON null is stored as PyVal.none, matching Python returning None),
otherwise the default. -/
def dgetD (d : PyDict) (k : String) (dflt : PyVal) : PyVal :=
  match lookupEntry d k with
  | Option.some v => v
  | Option.none => dflt

/-- Python d.get(k): missing key and JSON null both give None. -/
def dget (d : PyDict) (k : String) : PyVal :=
  dgetD d k PyVal.none

/-- Python `k in d` membership: true even when the stored value is null. -/
def hasKey (d : PyDict) (k : String) : Bool :=
  (lookupEntry d k).isSome

def keysOf (d : PyDict) : List String :=
  d.map Prod.fst

/-- A path segment: object key or array index (validate_content builds
pointers from strings and enumerate indices). -/
inductive PathPart where
  | s (v : String)
  | i (n : Nat)

/-- Segment escaping from the local esc of _json_pointer: the two sequential
replaces p.replace("~", "~0").replace("/", "~1") amount to this
character-wise substitution (the first rewrites every original tilde,
the second every slash; neither output re-triggers the other step),
written recursively so the kernel can evaluate pointers. -/
def escList : List Char → List Char
  | [] => []
  | c :: rest =>
    (if c = Char.ofNat 126 then [Char.ofNat 126, Char.ofNat 48]
     else if c = Char.ofNat 47 then [Char.ofNat 126, Char.ofNat 49]
     else [c]) ++ escList rest

def esc (p : String) : String :=
  String.mk (escList p.data)

def segString : PathPart → String
  | PathPart.s v => esc v
  | PathPart.i n => toString n

/-- "/".join, written recursively so that lemmas about appending a
segment go through by induction. -/
def joinSlash : List String → String
  | [] => ""
  | [x] => x
  | x :: y :: rest => x ++ "/" ++ joinSlash (y :: rest)

/-- _json_pointer: "/" + "/".join(out) if out else "". -/
def _json_pointer (parts : List PathPart) : String :=
  match parts.map segString with
  | [] => ""
  | out => "/" ++ joinSlash out

structure ValidationIssue where
  file : String
  pointer : String
  message : String
deriving DecidableEq

/-- Path.relative_to(root) for the paths this tool builds: strip the
root prefix when the file lies under it, otherwise keep the absolute
path (the Python except-branch). -/
def stripRoot (root file : String) : String :=
  if (root ++ "/").isPrefixOf file then file.drop (root ++ "/").length else file

/-- ValidationIssue.format: relative_path[:pointer]: message. -/
def ValidationIssue.format (i : ValidationIssue) (root : String) : String :=
  let rel := stripRoot root i.file
  let loc := if i.pointer = "" then rel else rel ++ ":" ++ i.pointer
  loc ++ ": " ++ i.message

/-- _is_number composed with float(v): int or float (Python bool is
excluded by an isinstance(v, bool) test in the source; here it is a distinct
constructor). -/
def toNum : PyVal → Option ℚ
  | PyVal.int n => Option.some (n : ℚ)
  | PyVal.float q => Option.some q
  | _ => Option.none

/-- _require_dict.  Parsed JSON object keys are always strings, so the
keys-must-be-strings branch of the source is unreachable in this model. -/
def _require_dict (issues : List ValidationIssue) (file : String) (parts : List PathPart)
    (v : PyVal) (what : String) : List ValidationIssue × Option PyDict :=
  match v with
  | PyVal.dict d => (issues, Option.some d)
  | _ => (issues ++ [⟨file, _json_pointer parts, what ++ " must be an object"⟩], Option.none)

def _require_list (issues : List ValidationIssue) (file : String) (parts : List PathPart)
    (v : PyVal) (what : String) : List ValidationIssue × Option (List PyVal) :=
  match v with
  | PyVal.list xs => (issues, Option.some xs)
  | _ => (issues ++ [⟨file, _json_pointer parts, what ++ " must be an array"⟩], Option.none)

def _require_str (issues : List ValidationIssue) (file : String) (parts : List PathPart)
    (v : PyVal) (what : String) : List ValidationIssue × Option String :=
  match v with
  | PyVal.str s =>
    if s = "" then
      (issues ++ [⟨file, _json_pointer parts, what ++ " must be a non-empty string"⟩], Option.none)
    else (issues, Option.some s)
  | _ => (issues ++ [⟨file, _json_pointer parts, what ++ " must be a non-empty string"⟩], Option.none)

def _require_int (issues : List ValidationIssue) (file : String) (parts : List PathPart)
    (v : PyVal) (what : String) (min_value : Option Int) : List ValidationIssue × Option Int :=
  match v with
  | PyVal.int n =>
    match min_value with
    | Option.some m =>
      if n < m then
        (issues ++ [⟨file, _json_pointer parts, what ++ " must be >= " ++ toString m⟩], Option.none)
      else (issues, Option.some n)
    | Option.none => (issues, Option.some n)
  | _ => (issues ++ [⟨file, _json_pointer parts, what ++ " must be an integer"⟩], Option.none)

def _require_number (issues : List ValidationIssue) (file : String) (parts : List PathPart)
    (v : PyVal) (what : String) (min_value : Option ℚ) : List ValidationIssue × Option ℚ :=
  match toNum v with
  | Option.none =>
    (issues ++ [⟨file, _json_pointer parts, what ++ " must be a number"⟩], Option.none)
  | Option.some vv =>
    match min_value with
    | Option.some m =>
      if vv < m then
        (issues ++ [⟨file, _json_pointer parts, what ++ " must be >= " ++ toString m⟩], Option.none)
      else (issues, Option.some vv)
    | Option.none => (issues, Option.some vv)

def _require_bool (issues : List ValidationIssue) (file : String) (parts : List PathPart)
    (v : PyVal) (what : String) : List ValidationIssue × Option Bool :=
  match v with
  | PyVal.bool b => (issues, Option.some b)
  | _ => (issues ++ [⟨file, _json_pointer parts, what ++ " must be true/false"⟩], Option.none)

/-- Issues appended by a checker when started from an empty list
(each checker only ever appends, so the sequential appends of a loader can be
written as concatenation of these blocks). -/
def reqNumIssues (file : String) (parts : List PathPart) (v : PyVal) (what : String)
    (min_value : Option ℚ) : List ValidationIssue :=
  (_require_number [] file parts v what min_value).1

def reqIntIssues (file : String) (parts : List PathPart) (v : PyVal) (what : String)
    (min_value : Option Int) : List ValidationIssue :=
  (_require_int [] file parts v what min_value).1

def reqStrIssues (file : String) (parts : List PathPart) (v : PyVal) (what : String) :
    List ValidationIssue :=
  (_require_str [] file parts v what).1

/-- Concatenate a list of issue blocks (used to state that loops append
per-entry findings in document order). -/
def flat : List (List α) → List α
  | [] => []
  | x :: xs => x ++ flat xs

/-- How the four content files are read: absent, unparsable JSON, or a
parsed document. -/
inductive FileInput where
  | missing
  | parseError (msg : String)
  | parsed (v : PyVal)

structure World where
  resources : FileInput
  blueprints : FileInput
  techTree : FileInput
  settings : FileInput
  fileExists : String → Bool

def resourcesPath (root : String) : String := root ++ "/data/blueprints/resources.json"
def blueprintsPath (root : String) : String := root ++ "/data/blueprints/starting_blueprints.json"
def techTreePath (root : String) : String := root ++ "/data/tech/tech_tree.json"
def settingsPath (root : String) : String := root ++ "/data/settings.json"

/-! Resource catalog loader (validate_resources). -/

def _ALLOWED_COMPONENT_TYPES : List String :=
  ["armor", "cargo", "colony_module", "engine", "fuel_tank", "mining",
   "reactor", "sensor", "shield", "troop_bay", "weapon"]

def _ALLOWED_SHIP_ROLES : List String :=
  ["freighter", "surveyor", "combatant", "unknown"]

def _ALLOWED_FACTION_OUTPUT_BONUS_KEYS : List String :=
  ["all", "construction", "industry", "mining", "research", "shipyard",
   "terraforming", "troop_training"]

/-- Issues for one entry of the resources object (the rid isinstance-str
test is always true after JSON parsing; the empty-id test remains). -/
def resourceEntryIssues (path : String) (rid : String) (robj : PyVal) : List ValidationIssue :=
  let rparts := [PathPart.s "resources", PathPart.s rid]
  if rid = "" then
    [⟨path, _json_pointer rparts, "resource id must be a non-empty string"⟩]
  else
    match _require_dict [] path rparts robj ("resource \x27" ++ rid ++ "\x27") with
    | (i, Option.none) => i
    | (i, Option.some robj_d) =>
      let i := (_require_str i path (rparts ++ [PathPart.s "name"]) (dget robj_d "name") "name").1
      let i := (_require_str i path (rparts ++ [PathPart.s "category"]) (dget robj_d "category") "category").1
      let i := (_require_bool i path (rparts ++ [PathPart.s "mineable"]) (dget robj_d "mineable") "mineable").1
      (_require_number i path (rparts ++ [PathPart.s "salvage_research_rp_per_ton"])
        (dget robj_d "salvage_research_rp_per_ton") "salvage_research_rp_per_ton" (Option.some 0)).1

def validate_resources (root : String) (input : FileInput) (issues : List ValidationIssue) :
    List ValidationIssue × Option PyDict :=
  let path := resourcesPath root
  match input with
  | FileInput.missing => (issues ++ [⟨path, "", "file not found"⟩], Option.none)
  | FileInput.parseError e =>
    (issues ++ [⟨path, "", "failed to parse JSON: " ++ e⟩], Option.none)
  | FileInput.parsed data =>
    match _require_dict issues path [] data "root" with
    | (i, Option.none) => (i, Option.none)
    | (i, Option.some top) =>
      let i := (_require_int i path [PathPart.s "version"] (dget top "version") "version" (Option.some 1)).1
      match _require_dict i path [PathPart.s "resources"] (dget top "resources") "resources" with
      | (i2, Option.none) => (i2, Option.none)
      | (i2, Option.some resources) =>
        (resources.foldl (fun acc e => acc ++ resourceEntryIssues path e.1 e.2) i2,
         Option.some resources)

/-! Blueprint loader (validate_blueprints). -/

/-- One entry of an installation resource map: the unknown-key reference
check and the non-negative number check run independently; an empty key
skips the value check (the continue in the loop). -/
def resourceMapEntryIssues (file : String) (parts : List PathPart) (what : String)
    (resource_ids : List String) (k : String) (amt : PyVal) : List ValidationIssue :=
  if k = "" then
    [⟨file, _json_pointer parts, what ++ " resource keys must be non-empty strings"⟩]
  else
    (if k ∈ resource_ids then []
     else [⟨file, _json_pointer (parts ++ [PathPart.s k]), "unknown resource \x27" ++ k ++ "\x27"⟩])
    ++ reqNumIssues file (parts ++ [PathPart.s k]) amt
         (what ++ "[\x27" ++ k ++ "\x27]") (Option.some 0)

def _validate_resource_map (issues : List ValidationIssue) (file : String) (parts : List PathPart)
    (v : PyVal) (what : String) (resource_ids : List String) : List ValidationIssue :=
  match _require_dict issues file parts v what with
  | (i, Option.none) => i
  | (i, Option.some m) =>
    m.foldl (fun acc e => acc ++ resourceMapEntryIssues file parts what resource_ids e.1 e.2) i

/-- The weapon branch of the per-type dispatch: at least one of the
beam / missile / point-defense key groups must be present, and every
field of each present group is validated. -/
def weaponChecks (path : String) (cparts : List PathPart) (cdict : PyDict) :
    List ValidationIssue :=
  let has_beam := hasKey cdict "damage" || hasKey cdict "weapon_range_mkm"
  let has_missile := hasKey cdict "missile_damage" || hasKey cdict "missile_range_mkm"
  let has_pd := hasKey cdict "point_defense_damage" || hasKey cdict "point_defense_range_mkm"
  (if !(has_beam || has_missile || has_pd) then
    [⟨path, _json_pointer cparts, "weapon must define beam/missile/point-defense fields"⟩]
   else [])
  ++ (if has_beam then
    reqNumIssues path (cparts ++ [PathPart.s "damage"]) (dget cdict "damage")
      "damage" (Option.some 0)
    ++ reqNumIssues path (cparts ++ [PathPart.s "weapon_range_mkm"]) (dget cdict "weapon_range_mkm")
      "weapon_range_mkm" (Option.some 0)
   else [])
  ++ (if has_missile then
    reqNumIssues path (cparts ++ [PathPart.s "missile_damage"]) (dget cdict "missile_damage")
      "missile_damage" (Option.some 0)
    ++ reqNumIssues path (cparts ++ [PathPart.s "missile_range_mkm"]) (dget cdict "missile_range_mkm")
      "missile_range_mkm" (Option.some 0)
    ++ reqNumIssues path (cparts ++ [PathPart.s "missile_speed_mkm_per_day"])
      (dget cdict "missile_speed_mkm_per_day") "missile_speed_mkm_per_day" (Option.some 0)
    ++ reqIntIssues path (cparts ++ [PathPart.s "missile_reload_days"])
      (dget cdict "missile_reload_days") "missile_reload_days" (Option.some 0)
    ++ reqIntIssues path (cparts ++ [PathPart.s "missile_ammo"]) (dget cdict "missile_ammo")
      "missile_ammo" (Option.some 0)
   else [])
  ++ (if has_pd then
    reqNumIssues path (cparts ++ [PathPart.s "point_defense_damage"])
      (dget cdict "point_defense_damage") "point_defense_damage" (Option.some 0)
    ++ reqNumIssues path (cparts ++ [PathPart.s "point_defense_range_mkm"])
      (dget cdict "point_defense_range_mkm") "point_defense_range_mkm" (Option.some 0)
   else [])

/-- Per-type required-field dispatch of validate_blueprints (the chain of
elif branches keyed on the declared component type). -/
def componentTypeChecks (path : String) (cparts : List PathPart) (ctype : Option String)
    (cdict : PyDict) : List ValidationIssue :=
  match ctype with
  | Option.some "engine" =>
    reqNumIssues path (cparts ++ [PathPart.s "speed_km_s"]) (dget cdict "speed_km_s")
      "speed_km_s" (Option.some (mkRat 1 1000))
    ++ reqNumIssues path (cparts ++ [PathPart.s "fuel_use_per_mkm"]) (dget cdict "fuel_use_per_mkm")
      "fuel_use_per_mkm" (Option.some 0)
  | Option.some "cargo" =>
    reqNumIssues path (cparts ++ [PathPart.s "cargo_tons"]) (dget cdict "cargo_tons")
      "cargo_tons" (Option.some (mkRat 1 1000))
  | Option.some "mining" =>
    reqNumIssues path (cparts ++ [PathPart.s "mining_tons_per_day"]) (dget cdict "mining_tons_per_day")
      "mining_tons_per_day" (Option.some (mkRat 1 1000))
  | Option.some "fuel_tank" =>
    reqNumIssues path (cparts ++ [PathPart.s "fuel_capacity_tons"]) (dget cdict "fuel_capacity_tons")
      "fuel_capacity_tons" (Option.some (mkRat 1 1000))
  | Option.some "colony_module" =>
    reqNumIssues path (cparts ++ [PathPart.s "colony_capacity_millions"])
      (dget cdict "colony_capacity_millions") "colony_capacity_millions" (Option.some (mkRat 1 1000))
  | Option.some "troop_bay" =>
    reqIntIssues path (cparts ++ [PathPart.s "troop_capacity"]) (dget cdict "troop_capacity")
      "troop_capacity" (Option.some 1)
  | Option.some "sensor" =>
    (if hasKey cdict "range_mkm" then
      reqNumIssues path (cparts ++ [PathPart.s "range_mkm"]) (dget cdict "range_mkm")
        "range_mkm" (Option.some (mkRat 1 1000))
     else [])
    ++ (if hasKey cdict "ecm_strength" then
      reqNumIssues path (cparts ++ [PathPart.s "ecm_strength"]) (dget cdict "ecm_strength")
        "ecm_strength" (Option.some 0)
     else [])
    ++ (if hasKey cdict "eccm_strength" then
      reqNumIssues path (cparts ++ [PathPart.s "eccm_strength"]) (dget cdict "eccm_strength")
        "eccm_strength" (Option.some 0)
     else [])
  | Option.some "reactor" =>
    reqNumIssues path (cparts ++ [PathPart.s "power"]) (dget cdict "power")
      "power" (Option.some (mkRat 1 1000))
  | Option.some "weapon" => weaponChecks path cparts cdict
  | Option.some "armor" =>
    (if hasKey cdict "hp_bonus" then
      reqNumIssues path (cparts ++ [PathPart.s "hp_bonus"]) (dget cdict "hp_bonus")
        "hp_bonus" (Option.some 0)
     else [])
    ++ (if hasKey cdict "signature_multiplier" then
      reqNumIssues path (cparts ++ [PathPart.s "signature_multiplier"])
        (dget cdict "signature_multiplier") "signature_multiplier" (Option.some 0)
     else [])
  | Option.some "shield" =>
    reqNumIssues path (cparts ++ [PathPart.s "shield_hp"]) (dget cdict "shield_hp")
      "shield_hp" (Option.some (mkRat 1 1000))
    ++ reqNumIssues path (cparts ++ [PathPart.s "shield_regen_per_day"])
      (dget cdict "shield_regen_per_day") "shield_regen_per_day" (Option.some 0)
  | _ => []

/-- Issues for one entry of the components object.  The findings of each entry are independent of every other entry, so the loop body is this
pure block appended to the running list. -/
def componentEntryIssues (path : String) (cid : String) (cobj : PyVal) : List ValidationIssue :=
  let cparts := [PathPart.s "components", PathPart.s cid]
  if cid = "" then
    [⟨path, _json_pointer cparts, "component id must be a non-empty string"⟩]
  else
    match _require_dict [] path cparts cobj ("component \x27" ++ cid ++ "\x27") with
    | (i, Option.none) => i
    | (i, Option.some cdict) =>
      let i1 := (_require_str i path (cparts ++ [PathPart.s "name"]) (dget cdict "name") "name").1
      let (i2, ctype) := _require_str i1 path (cparts ++ [PathPart.s "type"]) (dget cdict "type") "type"
      let i3 := i2 ++
        (match ctype with
         | Option.some t =>
           if t ∈ _ALLOWED_COMPONENT_TYPES then []
           else [⟨path, _json_pointer (cparts ++ [PathPart.s "type"]),
                  "unknown component type \x27" ++ t ++ "\x27"⟩]
         | Option.none => [])
      let i4 := i3 ++
        (match dget cdict "mass_tons" with
         | PyVal.none => []
         | m => reqNumIssues path (cparts ++ [PathPart.s "mass_tons"]) m "mass_tons" (Option.some 0))
      i4 ++ componentTypeChecks path cparts ctype cdict

def isNonemptyStr : PyVal → Bool
  | PyVal.str s => !(s = "")
  | _ => false

/-- components[cid] = cdict, performed when the entry parsed as a dict
and its name check succeeded (the retention rule of the source). -/
def componentEntryAdd (comps : PyDict) (cid : String) (cobj : PyVal) : PyDict :=
  if cid = "" then comps
  else
    match cobj with
    | PyVal.dict cdict =>
      if isNonemptyStr (dget cdict "name") then comps ++ [(cid, PyVal.dict cdict)] else comps
    | _ => comps

def componentsPass (path : String) (comps : PyDict) (issues : List ValidationIssue) :
    List ValidationIssue × PyDict :=
  comps.foldl (fun st e => (st.1 ++ componentEntryIssues path e.1 e.2, componentEntryAdd st.2 e.1 e.2))
    (issues, [])

/-- One design entry: duplicate-id tracking plus per-design field and
component-reference checks. -/
def processDesign (path : String) (components : PyDict)
    (st : List ValidationIssue × List String) (ie : Nat × PyVal) :
    List ValidationIssue × List String :=
  let dparts := [PathPart.s "designs", PathPart.i ie.1]
  match _require_dict st.1 path dparts ie.2 "design" with
  | (i, Option.none) => (i, st.2)
  | (i, Option.some d) =>
    let (i1, ids1) : List ValidationIssue × List String :=
      match _require_str i path (dparts ++ [PathPart.s "id"]) (dget d "id") "id" with
      | (i, Option.none) => (i, st.2)
      | (i, Option.some did) =>
        if did ∈ st.2 then
          (i ++ [⟨path, _json_pointer (dparts ++ [PathPart.s "id"]),
                  "duplicate design id \x27" ++ did ++ "\x27"⟩], st.2)
        else (i, st.2 ++ [did])
    let i2 := (_require_str i1 path (dparts ++ [PathPart.s "name"]) (dget d "name") "name").1
    let (i3, role) := _require_str i2 path (dparts ++ [PathPart.s "role"]) (dget d "role") "role"
    let i4 := i3 ++
      (match role with
       | Option.some r =>
         if r ∈ _ALLOWED_SHIP_ROLES then []
         else [⟨path, _json_pointer (dparts ++ [PathPart.s "role"]),
                "unknown ship role \x27" ++ r ++ "\x27"⟩]
       | Option.none => [])
    let i5 :=
      match _require_list i4 path (dparts ++ [PathPart.s "components"]) (dget d "components") "components" with
      | (i, Option.none) => i
      | (i, Option.some comp_list) =>
        i ++ flat (comp_list.enum.map (fun (je : Nat × PyVal) =>
          match _require_str [] path (dparts ++ [PathPart.s "components", PathPart.i je.1]) je.2
              "component id" with
          | (ci, Option.none) => ci
          | (ci, Option.some cid2) =>
            ci ++ (if hasKey components cid2 then []
                   else [⟨path, _json_pointer (dparts ++ [PathPart.s "components", PathPart.i je.1]),
                          "unknown component \x27" ++ cid2 ++ "\x27"⟩])))
    (i5, ids1)

/-- Issues for one entry of the installations object (independent of
every other entry). -/
def installationEntryIssues (path : String) (resource_ids : List String) (iid : String)
    (iobj : PyVal) : List ValidationIssue :=
  let iparts := [PathPart.s "installations", PathPart.s iid]
  if iid = "" then
    [⟨path, _json_pointer iparts, "installation id must be a non-empty string"⟩]
  else
    match _require_dict [] path iparts iobj ("installation \x27" ++ iid ++ "\x27") with
    | (i, Option.none) => i
    | (i, Option.some inst) =>
      let i1 := (_require_str i path (iparts ++ [PathPart.s "name"]) (dget inst "name") "name").1
      let i2 := i1 ++
        (if hasKey inst "construction_cost" then
          reqNumIssues path (iparts ++ [PathPart.s "construction_cost"])
            (dget inst "construction_cost") "construction_cost" (Option.some 0)
         else [])
      let i3 :=
        if hasKey inst "build_costs" then
          _validate_resource_map i2 path (iparts ++ [PathPart.s "build_costs"])
            (dget inst "build_costs") "build_costs" resource_ids
        else i2
      let i4 :=
        if hasKey inst "build_costs_per_ton" then
          _validate_resource_map i3 path (iparts ++ [PathPart.s "build_costs_per_ton"])
            (dget inst "build_costs_per_ton") "build_costs_per_ton" resource_ids
        else i3
      let i5 :=
        if hasKey inst "produces" then
          _validate_resource_map i4 path (iparts ++ [PathPart.s "produces"])
            (dget inst "produces") "produces" resource_ids
        else i4
      if hasKey inst "consumes" then
        _validate_resource_map i5 path (iparts ++ [PathPart.s "consumes"])
          (dget inst "consumes") "consumes" resource_ids
      else i5

def installationEntryAdd (insts : PyDict) (iid : String) (iobj : PyVal) : PyDict :=
  if iid = "" then insts
  else
    match iobj with
    | PyVal.dict inst => insts ++ [(iid, PyVal.dict inst)]
    | _ => insts

def installationsPass (path : String) (resource_ids : List String) (insts : PyDict)
    (issues : List ValidationIssue) : List ValidationIssue × PyDict :=
  insts.foldl
    (fun st e => (st.1 ++ installationEntryIssues path resource_ids e.1 e.2,
                  installationEntryAdd st.2 e.1 e.2))
    (issues, [])

/-- The include list check: each entry must be a string naming an
existing file next to the blueprint file (.resolve() path normalisation
is not modelled; no claim depends on it). -/
def includeIssues (path : String) (root : String) (fileEx : String → Bool) (inc : PyVal)
    (issues : List ValidationIssue) : List ValidationIssue :=
  match inc with
  | PyVal.none => issues
  | v =>
    match _require_list issues path [PathPart.s "include"] v "include" with
    | (i, Option.none) => i
    | (i, Option.some inc_list) =>
      i ++ flat (inc_list.enum.map (fun ie =>
        match _require_str [] path [PathPart.s "include", PathPart.i ie.1] ie.2 "include entry" with
        | (ci, Option.none) => ci
        | (ci, Option.some s) =>
          ci ++ (if fileEx (root ++ "/data/blueprints/" ++ s) then []
                 else [⟨path, _json_pointer [PathPart.s "include", PathPart.i ie.1],
                        "included file not found: " ++ s⟩])))

def validate_blueprints (root : String) (input : FileInput) (fileEx : String → Bool)
    (resource_ids : List String) (issues : List ValidationIssue) :
    List ValidationIssue × Option PyDict × Option PyDict :=
  let path := blueprintsPath root
  match input with
  | FileInput.missing => (issues ++ [⟨path, "", "file not found"⟩], Option.none, Option.none)
  | FileInput.parseError e =>
    (issues ++ [⟨path, "", "failed to parse JSON: " ++ e⟩], Option.none, Option.none)
  | FileInput.parsed data =>
    match _require_dict issues path [] data "root" with
    | (i, Option.none) => (i, Option.none, Option.none)
    | (i, Option.some top) =>
      let i := (_require_int i path [PathPart.s "version"] (dget top "version") "version" (Option.some 1)).1
      let i := includeIssues path root fileEx (dget top "include") i
      match _require_dict i path [PathPart.s "components"] (dget top "components") "components" with
      | (i2, Option.none) => (i2, Option.none, Option.none)
      | (i2, Option.some comps) =>
        let (i3, components) := componentsPass path comps i2
        let i4 :=
          match _require_list i3 path [PathPart.s "designs"] (dget top "designs") "designs" with
          | (i, Option.none) => i
          | (i, Option.some designs) =>
            (designs.enum.foldl (processDesign path components) (i, [])).1
        match _require_dict i4 path [PathPart.s "installations"] (dget top "installations")
            "installations" with
        | (i5, Option.none) => (i5, Option.some components, Option.none)
        | (i5, Option.some insts) =>
          let (i6, installations) := installationsPass path resource_ids insts i5
          (i6, Option.some components, Option.some installations)

/-! Tech tree loader (validate_tech_tree). -/

structure TechState where
  issues : List ValidationIssue
  tech_by_id : PyDict
  tech_index_by_id : List (String × Nat)

/-- Issues for one effect entry of a tech. -/
def effectIssues (path : String) (tparts : List PathPart) (component_ids installation_ids : List String)
    (je : Nat × PyVal) : List ValidationIssue :=
  let eparts := tparts ++ [PathPart.s "effects", PathPart.i je.1]
  match _require_dict [] path eparts je.2 "effect" with
  | (i, Option.none) => i
  | (i, Option.some e) =>
    match _require_str i path (eparts ++ [PathPart.s "type"]) (dget e "type") "type" with
    | (i2, Option.none) => i2
    | (i2, Option.some etype) =>
      if etype ∈ (["unlock_component", "unlock_installation", "faction_output_bonus"] : List String) then
        if etype = "unlock_component" ∨ etype = "unlock_installation" then
          match _require_str i2 path (eparts ++ [PathPart.s "value"]) (dget e "value") "value" with
          | (i3, Option.none) => i3
          | (i3, Option.some val) =>
            i3
            ++ (if etype = "unlock_component" ∧ val ∉ component_ids then
                  [⟨path, _json_pointer (eparts ++ [PathPart.s "value"]),
                    "unknown component \x27" ++ val ++ "\x27"⟩]
                else [])
            ++ (if etype = "unlock_installation" ∧ val ∉ installation_ids then
                  [⟨path, _json_pointer (eparts ++ [PathPart.s "value"]),
                    "unknown installation \x27" ++ val ++ "\x27"⟩]
                else [])
        else
          let (i3, key) := _require_str i2 path (eparts ++ [PathPart.s "value"]) (dget e "value") "value"
          let i4 := i3 ++
            (match key with
             | Option.some k =>
               if k ∈ _ALLOWED_FACTION_OUTPUT_BONUS_KEYS then []
               else [⟨path, _json_pointer (eparts ++ [PathPart.s "value"]),
                      "unknown output bonus key \x27" ++ k ++ "\x27"⟩]
             | Option.none => [])
          (_require_number i4 path (eparts ++ [PathPart.s "amount"]) (dget e "amount") "amount"
            (Option.some 0)).1
      else
        i2 ++ [⟨path, _json_pointer (eparts ++ [PathPart.s "type"]),
                "unknown effect type \x27" ++ etype ++ "\x27"⟩]

/-- One iteration of the tech schema loop.  A duplicate id records one
issue and short-circuits: no further checks, no map insertion. -/
def processTech (path : String) (component_ids installation_ids : List String)
    (st : TechState) (ie : Nat × PyVal) : TechState :=
  let tparts := [PathPart.s "techs", PathPart.i ie.1]
  match _require_dict st.issues path tparts ie.2 "tech" with
  | (i, Option.none) => { st with issues := i }
  | (i, Option.some t) =>
    match _require_str i path (tparts ++ [PathPart.s "id"]) (dget t "id") "id" with
    | (i2, Option.none) => { st with issues := i2 }
    | (i2, Option.some tid) =>
      if hasKey st.tech_by_id tid then
        { st with issues := i2 ++ [⟨path, _json_pointer (tparts ++ [PathPart.s "id"]),
                                    "duplicate tech id \x27" ++ tid ++ "\x27"⟩] }
      else
        let tech_by_id := st.tech_by_id ++ [(tid, PyVal.dict t)]
        let tech_index_by_id := st.tech_index_by_id ++ [(tid, ie.1)]
        let i3 := (_require_str i2 path (tparts ++ [PathPart.s "name"]) (dget t "name") "name").1
        let i4 := (_require_int i3 path (tparts ++ [PathPart.s "cost"]) (dget t "cost") "cost"
          (Option.some 0)).1
        let i5 :=
          match _require_list i4 path (tparts ++ [PathPart.s "prereqs"]) (dget t "prereqs") "prereqs" with
          | (i, Option.none) => i
          | (i, Option.some prereqs) =>
            i ++ flat (prereqs.enum.map (fun jp =>
              reqStrIssues path (tparts ++ [PathPart.s "prereqs", PathPart.i jp.1]) jp.2 "prereq"))
        let i6 :=
          match _require_list i5 path (tparts ++ [PathPart.s "effects"]) (dget t "effects") "effects" with
          | (i, Option.none) => i
          | (i, Option.some effects) =>
            i ++ flat (effects.enum.map (effectIssues path tparts component_ids installation_ids))
        ⟨i6, tech_by_id, tech_index_by_id⟩

/-- The prereqs-exist reference pass over the built tech map. -/
def prereqRefIssues (path : String) (tech_by_id : PyDict)
    (tech_index_by_id : List (String × Nat)) : List ValidationIssue :=
  flat (tech_by_id.map (fun te =>
    match te.2 with
    | PyVal.dict t =>
      match dget t "prereqs" with
      | PyVal.list prereqs =>
        flat (prereqs.enum.map (fun jp =>
          match jp.2 with
          | PyVal.str pre =>
            if hasKey tech_by_id pre then []
            else
              let idxPart :=
                match (tech_index_by_id.find? (fun p => p.1 = te.1)).map Prod.snd with
                | Option.some idx => PathPart.i idx
                | Option.none => PathPart.s te.1
              [⟨path, _json_pointer [PathPart.s "techs", idxPart, PathPart.s "prereqs", PathPart.i jp.1],
                "unknown prereq tech \x27" ++ pre ++ "\x27"⟩]
          | _ => []))
      | _ => []
    | _ => []))

/-- The prerequisite edges the DFS follows from a tech id: its prereq
list entries that are strings naming existing techs (edges into absent
ids are skipped). -/
def dfsChildren (g : PyDict) (tid : String) : List String :=
  match lookupEntry g tid with
  | Option.some (PyVal.dict t) =>
    match dgetD t "prereqs" (PyVal.list []) with
    | PyVal.list prereqs =>
      prereqs.filterMap (fun p =>
        match p with
        | PyVal.str s => if hasKey g s then Option.some s else Option.none
        | _ => Option.none)
    | _ => []
  | _ => []

structure DfsState where
  visiting : List String
  visited : List String
  issues : List ValidationIssue

/-- " -> ".join. -/
def joinArrow : List String → String
  | [] => ""
  | [x] => x
  | x :: y :: rest => x ++ " -> " ++ joinArrow (y :: rest)

/-- The reported cycle: the stack from the first occurrence of the
repeated id back to that id inclusive, arrow-joined. -/
def cycleMsg (stack : List String) (tid : String) : String :=
  "tech prereq cycle detected: " ++
    joinArrow (stack.dropWhile (fun x => !(x = tid)) ++ [tid])

/-- The dfs inner function of validate_tech_tree, with explicit fuel.
Fuel 0 returns the state unchanged; fuel sufficiency is proved below. -/
def dfsGo (path : String) (g : PyDict) : Nat → String → List String → DfsState → DfsState
  | 0, _, _, st => st
  | fuel + 1, tid, stack, st =>
    if tid ∈ st.visited then st
    else if tid ∈ st.visiting then
      { st with issues := st.issues ++ [⟨path, "", cycleMsg stack tid⟩] }
    else
      let st1 : DfsState := { st with visiting := st.visiting ++ [tid] }
      let st2 := (dfsChildren g tid).foldl
        (fun acc pre => dfsGo path g fuel pre (stack ++ [tid]) acc) st1
      ⟨st2.visiting.erase tid, st2.visited ++ [tid], st2.issues⟩

/-- The cycle-detection pass: a DFS from every not-yet-visited tech. -/
def cycleDetect (path : String) (g : PyDict) (fuel : Nat) (issues : List ValidationIssue) :
    List ValidationIssue :=
  ((keysOf g).foldl
    (fun st tid => if tid ∈ st.visited then st else dfsGo path g fuel tid [] st)
    ⟨[], [], issues⟩).issues

def validate_tech_tree (root : String) (input : FileInput)
    (component_ids installation_ids : List String) (issues : List ValidationIssue) :
    List ValidationIssue :=
  let path := techTreePath root
  match input with
  | FileInput.missing => issues ++ [⟨path, "", "file not found"⟩]
  | FileInput.parseError e => issues ++ [⟨path, "", "failed to parse JSON: " ++ e⟩]
  | FileInput.parsed data =>
    match _require_dict issues path [] data "root" with
    | (i, Option.none) => i
    | (i, Option.some top) =>
      let i := (_require_int i path [PathPart.s "version"] (dget top "version") "version" (Option.some 1)).1
      match _require_list i path [PathPart.s "techs"] (dget top "techs") "techs" with
      | (i2, Option.none) => i2
      | (i2, Option.some techs) =>
        let st := techs.enum.foldl (processTech path component_ids installation_ids) ⟨i2, [], []⟩
        let i3 := st.issues ++ prereqRefIssues path st.tech_by_id st.tech_index_by_id
        cycleDetect path st.tech_by_id (st.tech_by_id.length + 2) i3

/-! Settings loader (validate_settings) and the orchestrator. -/

def isDigitStr (s : String) : Bool :=
  !(s = "") && s.all Char.isDigit

def isLeapYear (y : Nat) : Bool :=
  (y % 4 = 0 && !(y % 100 = 0)) || (y % 400 = 0)

def daysInMonth (y m : Nat) : Nat :=
  if m = 2 then (if isLeapYear y then 29 else 28)
  else if m = 4 ∨ m = 6 ∨ m = 9 ∨ m = 11 then 30
  else 31

/-- Model of datetime.date.fromisoformat succeeding on the strict
YYYY-MM-DD calendar form the settings of this tool use. -/
def isoDateOk (s : String) : Bool :=
  match s.splitOn "-" with
  | [y, m, d] =>
    y.length = 4 && m.length = 2 && d.length = 2 &&
    isDigitStr y && isDigitStr m && isDigitStr d &&
    (match m.toNat?, d.toNat?, y.toNat? with
     | Option.some mn, Option.some dn, Option.some yn =>
       decide (1 ≤ mn) && decide (mn ≤ 12) && decide (1 ≤ dn) && decide (dn ≤ daysInMonth yn mn)
     | _, _, _ => false)
  | _ => false

def validate_settings (root : String) (input : FileInput) (issues : List ValidationIssue) :
    List ValidationIssue :=
  let path := settingsPath root
  match input with
  | FileInput.missing => issues ++ [⟨path, "", "file not found"⟩]
  | FileInput.parseError e => issues ++ [⟨path, "", "failed to parse JSON: " ++ e⟩]
  | FileInput.parsed data =>
    match _require_dict issues path [] data "root" with
    | (i, Option.none) => i
    | (i, Option.some top) =>
      let i1 :=
        if hasKey top "startingScenario" then
          (_require_str i path [PathPart.s "startingScenario"] (dget top "startingScenario")
            "startingScenario").1
        else i
      match dget top "sim" with
      | PyVal.none => i1
      | sim =>
        match _require_dict i1 path [PathPart.s "sim"] sim "sim" with
        | (i2, Option.none) => i2
        | (i2, Option.some sim_d) =>
          let i3 :=
            if hasKey sim_d "startDate" then
              match _require_str i2 path [PathPart.s "sim", PathPart.s "startDate"]
                  (dget sim_d "startDate") "startDate" with
              | (i, Option.none) => i
              | (i, Option.some s) =>
                if isoDateOk s then i
                else i ++ [⟨path, _json_pointer [PathPart.s "sim", PathPart.s "startDate"],
                            "startDate must be YYYY-MM-DD"⟩]
            else i2
          if hasKey sim_d "secondsPerDay" then
            (_require_int i3 path [PathPart.s "sim", PathPart.s "secondsPerDay"]
              (dget sim_d "secondsPerDay") "secondsPerDay" (Option.some 1)).1
          else i3

/-- validate_all: resources, then blueprints (fed the resource ids),
then the tech tree (fed component/installation ids), then settings;
issues accumulate across all four in that order. -/
def validate_all (root : String) (w : World) : List ValidationIssue :=
  let (i1, resources) := validate_resources root w.resources []
  let resource_ids :=
    match resources with
    | Option.some r => keysOf r
    | Option.none => []
  let (i2, components, installations) :=
    validate_blueprints root w.blueprints w.fileExists resource_ids i1
  let component_ids :=
    match components with
    | Option.some c => keysOf c
    | Option.none => []
  let installation_ids :=
    match installations with
    | Option.some c => keysOf c
    | Option.none => []
  let i3 := validate_tech_tree root w.techTree component_ids installation_ids i2
  validate_settings root w.settings i3

/-! Concrete documents used by the witnesses and counterexamples. -/

/-- A tech-tree document whose only flaw is the prerequisite cycle
a -> b -> c -> a. -/
def techDocCycle : PyVal :=
  PyVal.dict
    [("version", PyVal.int 1),
     ("techs", PyVal.list
       [PyVal.dict [("id", PyVal.str "a"), ("name", PyVal.str "Alpha"), ("cost", PyVal.int 0),
                    ("prereqs", PyVal.list [PyVal.str "b"]), ("effects", PyVal.list [])],
        PyVal.dict [("id", PyVal.str "b"), ("name", PyVal.str "Beta"), ("cost", PyVal.int 0),
                    ("prereqs", PyVal.list [PyVal.str "c"]), ("effects", PyVal.list [])],
        PyVal.dict [("id", PyVal.str "c"), ("name", PyVal.str "Gamma"), ("cost", PyVal.int 0),
                    ("prereqs", PyVal.list [PyVal.str "a"]), ("effects", PyVal.list [])]])]

/-- A diamond-shaped DAG: d depends on b and c, both depending on a. -/
def techDocDiamond : PyVal :=
  PyVal.dict
    [("version", PyVal.int 1),
     ("techs", PyVal.list
       [PyVal.dict [("id", PyVal.str "a"), ("name", PyVal.str "Alpha"), ("cost", PyVal.int 0),
                    ("prereqs", PyVal.list []), ("effects", PyVal.list [])],
        PyVal.dict [("id", PyVal.str "b"), ("name", PyVal.str "Beta"), ("cost", PyVal.int 0),
                    ("prereqs", PyVal.list [PyVal.str "a"]), ("effects", PyVal.list [])],
        PyVal.dict [("id", PyVal.str "c"), ("name", PyVal.str "Gamma"), ("cost", PyVal.int 0),
                    ("prereqs", PyVal.list [PyVal.str "a"]), ("effects", PyVal.list [])],
        PyVal.dict [("id", PyVal.str "d"), ("name", PyVal.str "Delta"), ("cost", PyVal.int 0),
                    ("prereqs", PyVal.list [PyVal.str "b", PyVal.str "c"]),
                    ("effects", PyVal.list [])]])]

/-- A blueprint document whose single installation produces a resource
that no catalog defines. -/
def blueprintDocW : PyVal :=
  PyVal.dict
    [("version", PyVal.int 1),
     ("components", PyVal.dict []),
     ("designs", PyVal.list []),
     ("installations", PyVal.dict
       [("mine", PyVal.dict
         [("name", PyVal.str "Mine"),
          ("produces", PyVal.dict [("titanium", PyVal.int 1)])])])]

/-- A run whose resources file is missing while the blueprint document
references a resource id. -/
def worldW : World :=
  ⟨FileInput.missing, FileInput.parsed blueprintDocW, FileInput.missing, FileInput.missing,
   fun _ => true⟩

/-- The same run with a resources file that fails to parse instead. -/
def worldWP : World :=
  ⟨FileInput.parseError "bad", FileInput.parsed blueprintDocW, FileInput.missing,
   FileInput.missing, fun _ => true⟩

/-- An engine whose speed is exactly the 0.001 bound. -/
def engineAtBound : PyVal :=
  PyVal.dict
    [("name", PyVal.str "Ion Drive"), ("type", PyVal.str "engine"),
     ("speed_km_s", PyVal.float (mkRat 1 1000)), ("fuel_use_per_mkm", PyVal.int 0)]

/-- The tech map validate_tech_tree builds from techDocCycle
(used to exercise the cycle pass directly). -/
def techMapCycle : PyDict :=
  [("a", PyVal.dict [("id", PyVal.str "a"), ("name", PyVal.str "Alpha"), ("cost", PyVal.int 0),
                     ("prereqs", PyVal.list [PyVal.str "b"]), ("effects", PyVal.list [])]),
   ("b", PyVal.dict [("id", PyVal.str "b"), ("name", PyVal.str "Beta"), ("cost", PyVal.int 0),
                     ("prereqs", PyVal.list [PyVal.str "c"]), ("effects", PyVal.list [])]),
   ("c", PyVal.dict [("id", PyVal.str "c"), ("name", PyVal.str "Gamma"), ("cost", PyVal.int 0),
                     ("prereqs", PyVal.list [PyVal.str "a"]), ("effects", PyVal.list [])])]

/-! Helper lemmas. -/

theorem flat_cons (x : List α) (xs : List (List α)) : flat (x :: xs) = x ++ flat xs := rfl

/-- A loop that appends a per-entry block to the running list yields the
input followed by the blocks in traversal order. -/
theorem foldl_append_flat (f : α → List β) :
    ∀ (l : List α) (acc : List β),
      l.foldl (fun a x => a ++ f x) acc = acc ++ flat (l.map f) := by
  intro l
  induction l with
  | nil => intro acc; simp [flat]
  | cons x xs ih => intro acc; simp [List.foldl_cons, flat, ih, List.append_assoc]

theorem hasKey_iff_mem (g : PyDict) (k : String) : hasKey g k = true ↔ k ∈ keysOf g := by
  induction g with
  | nil => simp [hasKey, lookupEntry, keysOf]
  | cons e rest ih =>
    cases e with
    | mk k0 v0 =>
      by_cases h : k = k0
      · simp [hasKey, lookupEntry, keysOf, h]
      · simp only [hasKey, lookupEntry, if_neg h, keysOf, List.map_cons, List.mem_cons]
        rw [show (lookupEntry rest k).isSome = hasKey rest k from rfl, ih]
        simp [keysOf, h]

theorem joinSlash_snoc (l : List String) (x : String) :
    joinSlash (l ++ [x]) = (if l = [] then x else joinSlash l ++ "/" ++ x) := by
  induction l with
  | nil => simp [joinSlash]
  | cons a rest ih =>
    cases rest with
    | nil => simp [joinSlash]
    | cons b rest2 =>
      have ih2 : joinSlash ((b :: rest2) ++ [x]) = joinSlash (b :: rest2) ++ "/" ++ x := by
        rw [ih]; simp
      calc joinSlash ((a :: b :: rest2) ++ [x])
          = a ++ "/" ++ joinSlash ((b :: rest2) ++ [x]) := rfl
        _ = a ++ "/" ++ (joinSlash (b :: rest2) ++ "/" ++ x) := by rw [ih2]
        _ = (if a :: b :: rest2 = [] then x else joinSlash (a :: b :: rest2) ++ "/" ++ x) := by
            simp [joinSlash, String.append_assoc]

theorem json_pointer_snoc (parts : List PathPart) (x : PathPart) :
    _json_pointer (parts ++ [x]) = _json_pointer parts ++ "/" ++ segString x := by
  cases parts with
  | nil => simp [_json_pointer, joinSlash]
  | cons p rest =>
    simp only [_json_pointer, List.map_append, List.map_cons, List.map_nil]
    rw [show (segString p :: List.map segString rest) ++ [segString x]
        = segString p :: (List.map segString rest ++ [segString x]) from rfl]
    cases h : List.map segString rest with
    | nil => simp [joinSlash, String.append_assoc]
    | cons y ys =>
      simp only [h] at *
      rw [show (segString p :: (y :: ys ++ [segString x])) = ((segString p :: y :: ys) ++ [segString x]) from rfl]
      rw [joinSlash_snoc]
      simp [String.append_assoc]

theorem string_append_length (s t : String) : (s ++ t).length = s.length + t.length := by
  simp [String.length_append]

/-- Appending a segment strictly lengthens a pointer, so the pointer of a field never equals the pointer of its parent node. -/
theorem json_pointer_snoc_ne (parts : List PathPart) (x : PathPart) :
    _json_pointer (parts ++ [x]) ≠ _json_pointer parts := by
  intro h
  have hlen := congrArg String.length h
  rw [json_pointer_snoc] at hlen
  simp only [String.length_append] at hlen
  have : ("/" : String).length = 1 := rfl
  omega

/-- Claim C7.  Every primitive checker is a total function of its value
argument: on success it returns the coerced value with the issue list
unchanged, on failure it returns no value after appending exactly one
issue. -/
theorem checkers_total :
    ∀ (issues : List ValidationIssue) (file : String) (parts : List PathPart) (v : PyVal)
      (what : String),
      ((∃ d, _require_dict issues file parts v what = (issues, Option.some d)) ∨
        (∃ iss, _require_dict issues file parts v what = (issues ++ [iss], Option.none))) ∧
      ((∃ xs, _require_list issues file parts v what = (issues, Option.some xs)) ∨
        (∃ iss, _require_list issues file parts v what = (issues ++ [iss], Option.none))) ∧
      ((∃ s, _require_str issues file parts v what = (issues, Option.some s)) ∨
        (∃ iss, _require_str issues file parts v what = (issues ++ [iss], Option.none))) ∧
      ((∃ b, _require_bool issues file parts v what = (issues, Option.some b)) ∨
        (∃ iss, _require_bool issues file parts v what = (issues ++ [iss], Option.none))) ∧
      (∀ min_value, (∃ n, _require_int issues file parts v what min_value = (issues, Option.some n)) ∨
        (∃ iss, _require_int issues file parts v what min_value = (issues ++ [iss], Option.none))) ∧
      (∀ min_value, (∃ q, _require_number issues file parts v what min_value = (issues, Option.some q)) ∨
        (∃ iss, _require_number issues file parts v what min_value = (issues ++ [iss], Option.none))) := by
  intro issues file parts v what
  refine ⟨?_, ?_, ?_, ?_, ?_, ?_⟩
  · cases v <;> first | exact Or.inl ⟨_, rfl⟩ | exact Or.inr ⟨_, rfl⟩
  · cases v <;> first | exact Or.inl ⟨_, rfl⟩ | exact Or.inr ⟨_, rfl⟩
  · cases v with
    | str s =>
      by_cases h : s = ""
      · exact Or.inr ⟨⟨file, _json_pointer parts, what ++ " must be a non-empty string"⟩,
          by simp [_require_str, h]⟩
      · exact Or.inl ⟨s, by simp [_require_str, h]⟩
    | none => exact Or.inr ⟨_, rfl⟩
    | bool b => exact Or.inr ⟨_, rfl⟩
    | int n => exact Or.inr ⟨_, rfl⟩
    | float q => exact Or.inr ⟨_, rfl⟩
    | list xs => exact Or.inr ⟨_, rfl⟩
    | dict d => exact Or.inr ⟨_, rfl⟩
  · cases v <;> first | exact Or.inl ⟨_, rfl⟩ | exact Or.inr ⟨_, rfl⟩
  · intro min_value
    cases v with
    | int n =>
      cases min_value with
      | none => exact Or.inl ⟨n, rfl⟩
      | some m =>
        by_cases h : n < m
        · exact Or.inr ⟨⟨file, _json_pointer parts, what ++ " must be >= " ++ toString m⟩,
            by simp [_require_int, h]⟩
        · exact Or.inl ⟨n, by simp [_require_int, h]⟩
    | none => exact Or.inr ⟨_, rfl⟩
    | bool b => exact Or.inr ⟨_, rfl⟩
    | float q => exact Or.inr ⟨_, rfl⟩
    | str s => exact Or.inr ⟨_, rfl⟩
    | list xs => exact Or.inr ⟨_, rfl⟩
    | dict d => exact Or.inr ⟨_, rfl⟩
  · intro min_value
    cases v with
    | int n =>
      cases min_value with
      | none => exact Or.inl ⟨_, rfl⟩
      | some m =>
        by_cases h : (n : ℚ) < m
        · exact Or.inr ⟨⟨file, _json_pointer parts, what ++ " must be >= " ++ toString m⟩,
            by simp [_require_number, toNum, h]⟩
        · exact Or.inl ⟨(n : ℚ), by simp [_require_number, toNum, h]⟩
    | float q =>
      cases min_value with
      | none => exact Or.inl ⟨_, rfl⟩
      | some m =>
        by_cases h : q < m
        · exact Or.inr ⟨⟨file, _json_pointer parts, what ++ " must be >= " ++ toString m⟩,
            by simp [_require_number, toNum, h]⟩
        · exact Or.inl ⟨q, by simp [_require_number, toNum, h]⟩
    | none => exact Or.inr ⟨_, rfl⟩
    | bool b => exact Or.inr ⟨_, rfl⟩
    | str s => exact Or.inr ⟨_, rfl⟩
    | list xs => exact Or.inr ⟨_, rfl⟩
    | dict d => exact Or.inr ⟨_, rfl⟩

/-! DFS structural lemmas. -/

/-- The dfs body restores the visiting set it received (Python adds the
node on entry and removes it before returning). -/
theorem dfsGo_visiting (path : String) (g : PyDict) :
    ∀ (fuel : Nat) (tid : String) (stack : List String) (st : DfsState),
      (dfsGo path g fuel tid stack st).visiting = st.visiting := by
  intro fuel
  induction fuel with
  | zero => intro tid stack st; rfl
  | succ f ih =>
    intro tid stack st
    by_cases h1 : tid ∈ st.visited
    · simp [dfsGo, h1]
    · by_cases h2 : tid ∈ st.visiting
      · simp [dfsGo, h1, h2]
      · have hfold : ∀ (l : List String) (acc : DfsState),
            (l.foldl (fun a pre => dfsGo path g f pre (stack ++ [tid]) a) acc).visiting
              = acc.visiting := by
          intro l
          induction l with
          | nil => intro acc; rfl
          | cons c cs ihl => intro acc; simp only [List.foldl_cons]; rw [ihl, ih]
        simp only [dfsGo, if_neg h1, if_neg h2]
        rw [hfold]
        show (st.visiting ++ [tid]).erase tid = st.visiting
        rw [List.erase_append_right _ h2]
        simp

/-- Every DFS edge target is a defined tech id. -/
theorem dfsChildren_subset (g : PyDict) (tid : String) :
    ∀ c ∈ dfsChildren g tid, c ∈ keysOf g := by
  intro c hc
  unfold dfsChildren at hc
  cases hl : lookupEntry g tid with
  | none => simp [hl] at hc
  | some v =>
    cases v with
    | dict t =>
      simp only [hl] at hc
      cases hp : dgetD t "prereqs" (PyVal.list []) with
      | list prereqs =>
        simp only [hp, List.mem_filterMap] at hc
        obtain ⟨p, _, hpc⟩ := hc
        cases p with
        | str s =>
          by_cases hk : hasKey g s = true
          · simp only [hk, if_true] at hpc
            have hsc : s = c := by simpa using hpc
            exact hsc ▸ (hasKey_iff_mem g s).mp hk
          · simp [hk] at hpc
        | none => exact absurd hpc (by simp)
        | bool b => exact absurd hpc (by simp)
        | int n => exact absurd hpc (by simp)
        | float q => exact absurd hpc (by simp)
        | list xs => exact absurd hpc (by simp)
        | dict d => exact absurd hpc (by simp)
      | none => simp [hp] at hc
      | bool b => simp [hp] at hc
      | int n => simp [hp] at hc
      | float q => simp [hp] at hc
      | str s => simp [hp] at hc
      | dict d => simp [hp] at hc
    | none => simp [hl] at hc
    | bool b => simp [hl] at hc
    | int n => simp [hl] at hc
    | float q => simp [hl] at hc
    | str s => simp [hl] at hc
    | list xs => simp [hl] at hc

/-- Consecutive-edge predicate along a list of ids. -/
def chainOk (R : String → String → Prop) : List String → Prop
  | [] => True
  | [_] => True
  | a :: b :: rest => R a b ∧ chainOk R (b :: rest)

theorem chainOk_of_append (R : String → String → Prop) :
    ∀ (l₁ l₂ : List String), chainOk R (l₁ ++ l₂) → chainOk R l₂ := by
  intro l₁
  induction l₁ with
  | nil => intro l₂ h; exact h
  | cons a t ih =>
    intro l₂ h
    apply ih
    cases t with
    | nil =>
      cases l₂ with
      | nil => trivial
      | cons b l₂t => exact h.2
    | cons b t2 => exact h.2

theorem chainOk_snoc (R : String → String → Prop) :
    ∀ (l : List String) (b c : String), chainOk R (l ++ [b]) → R b c →
      chainOk R ((l ++ [b]) ++ [c]) := by
  intro l
  induction l with
  | nil => intro b c _ hbc; exact ⟨hbc, trivial⟩
  | cons a t ih =>
    intro b c h hbc
    cases t with
    | nil => exact ⟨h.1, hbc, trivial⟩
    | cons a2 t2 => exact ⟨h.1, ih b c h.2 hbc⟩

theorem chain_to_transGen (R : String → String → Prop) :
    ∀ (l : List String) (a b : String), chainOk R (a :: (l ++ [b])) →
      Relation.TransGen R a b := by
  intro l
  induction l with
  | nil => intro a b h; exact Relation.TransGen.single h.1
  | cons c t ih => intro a b h; exact Relation.TransGen.head h.1 (ih c b h.2)

theorem chainOk_mem_cycle (R : String → String → Prop) (stack : List String) (tid : String)
    (hmem : tid ∈ stack) (hchain : chainOk R (stack ++ [tid])) :
    Relation.TransGen R tid tid := by
  obtain ⟨l₁, l₂, rfl⟩ := List.append_of_mem hmem
  have h2 : chainOk R ((tid :: l₂) ++ [tid]) := by
    apply chainOk_of_append R l₁
    rw [← List.append_assoc]
    exact hchain
  exact chain_to_transGen R l₂ tid tid h2

/-- The prerequisite edge relation the DFS walks (restricted to defined
tech ids by construction). -/
def TechEdge (g : PyDict) (a b : String) : Prop := b ∈ dfsChildren g a

/-- Acyclicity of the prerequisite relation restricted to defined ids. -/
def AcyclicTech (g : PyDict) : Prop := ∀ t, ¬ Relation.TransGen (TechEdge g) t t

/-- On an acyclic tech map the dfs body appends no issue. -/
theorem dfsGo_issues_of_acyclic (path : String) (g : PyDict) (hac : AcyclicTech g) :
    ∀ (fuel : Nat) (tid : String) (stack : List String) (st : DfsState),
      chainOk (TechEdge g) (stack ++ [tid]) → st.visiting = stack →
      (dfsGo path g fuel tid stack st).issues = st.issues := by
  intro fuel
  induction fuel with
  | zero => intro tid stack st _ _; rfl
  | succ f ih =>
    intro tid stack st hchain hvis
    by_cases h1 : tid ∈ st.visited
    · simp [dfsGo, h1]
    · by_cases h2 : tid ∈ st.visiting
      · exact absurd (chainOk_mem_cycle _ stack tid (hvis ▸ h2) hchain) (hac tid)
      · have hfold : ∀ (l : List String), (∀ c ∈ l, TechEdge g tid c) → ∀ (acc : DfsState),
            acc.visiting = stack ++ [tid] →
            ((l.foldl (fun a pre => dfsGo path g f pre (stack ++ [tid]) a) acc).issues
              = acc.issues) ∧
            ((l.foldl (fun a pre => dfsGo path g f pre (stack ++ [tid]) a) acc).visiting
              = stack ++ [tid]) := by
          intro l
          induction l with
          | nil => intro _ acc hv; exact ⟨rfl, hv⟩
          | cons c cs ihl =>
            intro hcl acc hv
            simp only [List.foldl_cons]
            have hchild : chainOk (TechEdge g) ((stack ++ [tid]) ++ [c]) :=
              chainOk_snoc _ stack tid c hchain (hcl c (List.mem_cons_self c cs))
            have hiss := ih c (stack ++ [tid]) acc hchild hv
            have hvv := dfsGo_visiting path g f c (stack ++ [tid]) acc
            have hrest := ihl (fun x hx => hcl x (List.mem_cons_of_mem c hx))
              (dfsGo path g f c (stack ++ [tid]) acc) (by rw [hvv]; exact hv)
            exact ⟨hrest.1.trans hiss, hrest.2⟩
        have hres := hfold (dfsChildren g tid) (fun c hc => hc)
          { st with visiting := st.visiting ++ [tid] } (by simp [hvis])
        simp only [dfsGo, if_neg h1, if_neg h2]
        exact hres.1

/-- On an acyclic restricted prerequisite relation the whole cycle pass
appends no issue, whatever the fuel. -/
theorem cycleDetect_of_acyclic (path : String) (g : PyDict) (hac : AcyclicTech g)
    (fuel : Nat) (issues : List ValidationIssue) :
    cycleDetect path g fuel issues = issues := by
  unfold cycleDetect
  have hstep : ∀ (l : List String) (st : DfsState), st.visiting = [] →
      ((l.foldl (fun st tid => if tid ∈ st.visited then st else dfsGo path g fuel tid [] st) st).issues
        = st.issues) ∧
      ((l.foldl (fun st tid => if tid ∈ st.visited then st else dfsGo path g fuel tid [] st) st).visiting
        = []) := by
    intro l
    induction l with
    | nil => intro st hv; exact ⟨rfl, hv⟩
    | cons tid ts ih =>
      intro st hv
      simp only [List.foldl_cons]
      by_cases h : tid ∈ st.visited
      · simp only [if_pos h]; exact ih st hv
      · simp only [if_neg h]
        have hiss := dfsGo_issues_of_acyclic path g hac fuel tid [] st trivial hv
        have hvv := dfsGo_visiting path g fuel tid [] st
        have hrest := ih (dfsGo path g fuel tid [] st) (by rw [hvv]; exact hv)
        exact ⟨hrest.1.trans hiss, hrest.2⟩
  exact (hstep (keysOf g) ⟨[], [], issues⟩ rfl).1

/-- Every issue the dfs body adds carries an empty pointer. -/
theorem dfsGo_pointer (path : String) (g : PyDict) :
    ∀ (fuel : Nat) (tid : String) (stack : List String) (st : DfsState),
      ∀ i ∈ (dfsGo path g fuel tid stack st).issues, i ∈ st.issues ∨ i.pointer = "" := by
  intro fuel
  induction fuel with
  | zero => intro tid stack st i hi; exact Or.inl hi
  | succ f ih =>
    intro tid stack st i hi
    by_cases h1 : tid ∈ st.visited
    · simp only [dfsGo, if_pos h1] at hi; exact Or.inl hi
    · by_cases h2 : tid ∈ st.visiting
      · simp only [dfsGo, if_neg h1, if_pos h2] at hi
        rcases List.mem_append.mp hi with h | h
        · exact Or.inl h
        · simp only [List.mem_singleton] at h
          subst h
          exact Or.inr rfl
      · have hfold : ∀ (l : List String) (acc : DfsState),
            (∀ j ∈ acc.issues, j ∈ st.issues ∨ j.pointer = "") →
            ∀ j ∈ (l.foldl (fun a pre => dfsGo path g f pre (stack ++ [tid]) a) acc).issues,
              j ∈ st.issues ∨ j.pointer = "" := by
          intro l
          induction l with
          | nil => intro acc hacc j hj; exact hacc j hj
          | cons c cs ihl =>
            intro acc hacc j hj
            simp only [List.foldl_cons] at hj
            refine ihl (dfsGo path g f c (stack ++ [tid]) acc) ?_ j hj
            intro j2 hj2
            rcases ih c (stack ++ [tid]) acc j2 hj2 with h | h
            · exact hacc j2 h
            · exact Or.inr h
        simp only [dfsGo, if_neg h1, if_neg h2] at hi
        exact hfold (dfsChildren g tid) { st with visiting := st.visiting ++ [tid] }
          (fun j hj => Or.inl hj) i hi

/-- Every issue the whole cycle pass adds carries an empty pointer. -/
theorem cycleDetect_pointer (path : String) (g : PyDict) (fuel : Nat)
    (issues : List ValidationIssue) :
    ∀ i ∈ cycleDetect path g fuel issues, i ∈ issues ∨ i.pointer = "" := by
  unfold cycleDetect
  have hstep : ∀ (l : List String) (st : DfsState),
      (∀ j ∈ st.issues, j ∈ issues ∨ j.pointer = "") →
      ∀ j ∈ (l.foldl (fun st tid => if tid ∈ st.visited then st else dfsGo path g fuel tid [] st) st).issues,
        j ∈ issues ∨ j.pointer = "" := by
    intro l
    induction l with
    | nil => intro st hst j hj; exact hst j hj
    | cons tid ts ih =>
      intro st hst j hj
      simp only [List.foldl_cons] at hj
      by_cases h : tid ∈ st.visited
      · rw [if_pos h] at hj; exact ih st hst j hj
      · rw [if_neg h] at hj
        refine ih (dfsGo path g fuel tid [] st) ?_ j hj
        intro j2 hj2
        rcases dfsGo_pointer path g fuel tid [] st j2 hj2 with h2 | h2
        · exact hst j2 h2
        · exact Or.inr h2
  exact hstep (keysOf g) ⟨[], [], issues⟩ (fun j hj => Or.inl hj)

/-- A visiting set that is duplicate-free and made of defined ids is no
longer than the id list. -/
theorem visiting_length_le (g : PyDict) (v : List String) (hn : v.Nodup)
    (hs : ∀ x ∈ v, x ∈ keysOf g) : v.length ≤ (keysOf g).length :=
  (hn.subperm (fun x hx => hs x hx)).length_le

/-- Fuel indifference for the dfs body: any two fuels above the
remaining-ids measure compute the same state, so the Python recursion
(which has no fuel) is total on every finite tech map. -/
theorem dfsGo_fuel_indep (path : String) (g : PyDict) :
    ∀ (f₁ f₂ : Nat) (tid : String) (stack : List String) (st : DfsState),
      st.visiting.Nodup → (∀ x ∈ st.visiting, x ∈ keysOf g) → tid ∈ keysOf g →
      (keysOf g).length - st.visiting.length + 1 ≤ f₁ →
      (keysOf g).length - st.visiting.length + 1 ≤ f₂ →
      dfsGo path g f₁ tid stack st = dfsGo path g f₂ tid stack st := by
  intro f₁
  induction f₁ with
  | zero => intro f₂ tid stack st _ _ _ hb1 _; omega
  | succ f ih =>
    intro f₂ tid stack st hnod hsub hmem hb1 hb2
    cases f₂ with
    | zero => omega
    | succ f2 =>
      by_cases h1 : tid ∈ st.visited
      · simp [dfsGo, h1]
      · by_cases h2 : tid ∈ st.visiting
        · simp [dfsGo, h1, h2]
        · have hnod2 : (st.visiting ++ [tid]).Nodup := by
            rw [List.nodup_append]
            refine ⟨hnod, List.nodup_singleton tid, ?_⟩
            intro x hx hx2
            simp only [List.mem_singleton] at hx2
            subst hx2
            exact h2 hx
          have hsub2 : ∀ x ∈ st.visiting ++ [tid], x ∈ keysOf g := by
            intro x hx
            rcases List.mem_append.mp hx with h | h
            · exact hsub x h
            · simp only [List.mem_singleton] at h; subst h; exact hmem
          have hlen : st.visiting.length + 1 ≤ (keysOf g).length := by
            have := visiting_length_le g (st.visiting ++ [tid]) hnod2 hsub2
            simpa using this
          have hfold : ∀ (l : List String), (∀ c ∈ l, c ∈ keysOf g) → ∀ (acc : DfsState),
              acc.visiting = st.visiting ++ [tid] →
              l.foldl (fun a pre => dfsGo path g f pre (stack ++ [tid]) a) acc
                = l.foldl (fun a pre => dfsGo path g f2 pre (stack ++ [tid]) a) acc := by
            intro l
            induction l with
            | nil => intro _ acc _; rfl
            | cons c cs ihl =>
              intro hcs acc hacv
              simp only [List.foldl_cons]
              have hlenacc : acc.visiting.length = st.visiting.length + 1 := by
                rw [hacv]; simp
              have heq : dfsGo path g f c (stack ++ [tid]) acc
                  = dfsGo path g f2 c (stack ++ [tid]) acc := by
                apply ih f2 c (stack ++ [tid]) acc (hacv ▸ hnod2) (hacv ▸ hsub2)
                  (hcs c (List.mem_cons_self c cs))
                · omega
                · omega
              rw [heq]
              exact ihl (fun x hx => hcs x (List.mem_cons_of_mem c hx))
                (dfsGo path g f2 c (stack ++ [tid]) acc)
                (by rw [dfsGo_visiting]; exact hacv)
          simp only [dfsGo, if_neg h1, if_neg h2]
          rw [hfold (dfsChildren g tid) (dfsChildren_subset g tid)
            { st with visiting := st.visiting ++ [tid] } rfl]

/-- Fuel indifference for the whole cycle pass above the node-count
bound. -/
theorem cycleDetect_fuel_indep (path : String) (g : PyDict) (f₁ f₂ : Nat)
    (issues : List ValidationIssue)
    (h1 : (keysOf g).length + 1 ≤ f₁) (h2 : (keysOf g).length + 1 ≤ f₂) :
    cycleDetect path g f₁ issues = cycleDetect path g f₂ issues := by
  unfold cycleDetect
  have hstep : ∀ (l : List String), (∀ x ∈ l, x ∈ keysOf g) → ∀ (st : DfsState),
      st.visiting = [] →
      l.foldl (fun st tid => if tid ∈ st.visited then st else dfsGo path g f₁ tid [] st) st
        = l.foldl (fun st tid => if tid ∈ st.visited then st else dfsGo path g f₂ tid [] st) st := by
    intro l
    induction l with
    | nil => intro _ st _; rfl
    | cons tid ts ih =>
      intro hls st hv
      simp only [List.foldl_cons]
      by_cases hm : tid ∈ st.visited
      · simp only [if_pos hm]
        exact ih (fun x hx => hls x (List.mem_cons_of_mem tid hx)) st hv
      · simp only [if_neg hm]
        have heq : dfsGo path g f₁ tid [] st = dfsGo path g f₂ tid [] st := by
          apply dfsGo_fuel_indep path g f₁ f₂ tid [] st (hv ▸ List.nodup_nil)
            (by rw [hv]; intro x hx; cases hx) (hls tid (List.mem_cons_self tid ts))
          · rw [hv]; simpa using h1
          · rw [hv]; simpa using h2
        rw [heq]
        exact ih (fun x hx => hls x (List.mem_cons_of_mem tid hx))
          (dfsGo path g f₂ tid [] st) (by rw [dfsGo_visiting]; exact hv)
  rw [hstep (keysOf g) (fun x hx => hx) ⟨[], [], issues⟩ rfl]

/-- The fractional bound used by the per-type checks is the 0.001 literal of the source. -/
theorem mkRat_thousandth : mkRat 1 1000 = (0.001 : ℚ) := by norm_num

/-! Characterisations of the bounded-number and bounded-integer checks. -/

theorem reqNumIssues_eq (file : String) (parts : List PathPart) (v : PyVal) (what : String)
    (m : ℚ) :
    reqNumIssues file parts v what (Option.some m)
      = (match toNum v with
         | Option.none => [⟨file, _json_pointer parts, what ++ " must be a number"⟩]
         | Option.some q =>
           if q < m then [⟨file, _json_pointer parts, what ++ " must be >= " ++ toString m⟩]
           else []) := by
  unfold reqNumIssues _require_number
  cases toNum v with
  | none => rfl
  | some q => by_cases h : q < m <;> simp [h]

/-- The bounded-number check passes silently exactly on numbers meeting
the inclusive lower bound. -/
theorem reqNumIssues_nil_iff (file : String) (parts : List PathPart) (v : PyVal) (what : String)
    (m : ℚ) :
    reqNumIssues file parts v what (Option.some m) = []
      ↔ ∃ q, toNum v = Option.some q ∧ m ≤ q := by
  rw [reqNumIssues_eq]
  cases hv : toNum v with
  | none => simp
  | some q =>
    by_cases h : q < m
    · simp [h, not_le.mpr h]
    · simp [h, le_of_not_lt h]

theorem reqNumIssues_length_le (file : String) (parts : List PathPart) (v : PyVal) (what : String)
    (m : Option ℚ) : (reqNumIssues file parts v what m).length ≤ 1 := by
  unfold reqNumIssues _require_number
  cases toNum v with
  | none => simp
  | some q =>
    cases m with
    | none => simp
    | some m0 => by_cases h : q < m0 <;> simp [h]

theorem mem_reqNumIssues (file : String) (parts : List PathPart) (v : PyVal) (what : String)
    (m : Option ℚ) :
    ∀ i ∈ reqNumIssues file parts v what m, i.pointer = _json_pointer parts := by
  intro i hi
  unfold reqNumIssues _require_number at hi
  cases hv : toNum v with
  | none => rw [hv] at hi; simp at hi; subst hi; rfl
  | some q =>
    rw [hv] at hi
    cases m with
    | none => simp at hi
    | some m0 =>
      by_cases h : q < m0
      · simp [h] at hi; subst hi; rfl
      · simp [h] at hi

theorem mem_reqIntIssues (file : String) (parts : List PathPart) (v : PyVal) (what : String)
    (m : Option Int) :
    ∀ i ∈ reqIntIssues file parts v what m, i.pointer = _json_pointer parts := by
  intro i hi
  unfold reqIntIssues _require_int at hi
  cases v with
  | int n =>
    cases m with
    | none => simp at hi
    | some m0 =>
      by_cases h : n < m0
      · simp [h] at hi; subst hi; rfl
      · simp [h] at hi
  | none => simp at hi; subst hi; rfl
  | bool b => simp at hi; subst hi; rfl
  | float q => simp at hi; subst hi; rfl
  | str s => simp at hi; subst hi; rfl
  | list xs => simp at hi; subst hi; rfl
  | dict d => simp at hi; subst hi; rfl

/-- A finding of a bounded-number check on a child node never coincides
with an issue addressed at the parent node. -/
theorem mem_reqNum_ne_parent (file : String) (cparts : List PathPart) (x : PathPart) (v : PyVal)
    (w : String) (m : Option ℚ) (j : ValidationIssue)
    (hj : j ∈ reqNumIssues file (cparts ++ [x]) v w m) (f2 msg : String) :
    ¬ j = ⟨f2, _json_pointer cparts, msg⟩ := by
  intro he
  have hp := mem_reqNumIssues file (cparts ++ [x]) v w m j hj
  rw [he] at hp
  exact json_pointer_snoc_ne cparts x hp.symm

theorem mem_reqInt_ne_parent (file : String) (cparts : List PathPart) (x : PathPart) (v : PyVal)
    (w : String) (m : Option Int) (j : ValidationIssue)
    (hj : j ∈ reqIntIssues file (cparts ++ [x]) v w m) (f2 msg : String) :
    ¬ j = ⟨f2, _json_pointer cparts, msg⟩ := by
  intro he
  have hp := mem_reqIntIssues file (cparts ++ [x]) v w m j hj
  rw [he] at hp
  exact json_pointer_snoc_ne cparts x hp.symm

theorem dget_of_not_hasKey (d : PyDict) (k : String) (h : hasKey d k = false) :
    dget d k = PyVal.none := by
  unfold dget dgetD
  unfold hasKey at h
  cases hl : lookupEntry d k with
  | none => rfl
  | some v => rw [hl] at h; simp at h

/-! Claims C3, C4, C6. -/

/-- Claim C3, counterexample.  The claim says an engine whose speed
value is less than or equal to 0.001 — for example exactly 0.001 —
receives a shape-violation issue; on this engine with speed exactly
0.001 the component checks emit no issue at all, because the bound test of the source,  `v < min_value` is exclusive, i.e. the bound is inclusive. -/
theorem engine_speed_bound_counterexample :
    componentEntryIssues "r/data/blueprints/starting_blueprints.json" "eng1" engineAtBound
      = [] := by decide

/-- Claim C3 as amended: for a component of declared type engine the
dispatch runs exactly the speed check (number with inclusive lower
bound 0.001: values below 0.001 or non-numbers get exactly one issue,
0.001 itself passes) and the fuel-use check (number, inclusive lower
bound 0). -/
theorem engine_field_checks :
    ∀ (file : String) (cparts : List PathPart) (cdict : PyDict),
      componentTypeChecks file cparts (Option.some "engine") cdict
        = reqNumIssues file (cparts ++ [PathPart.s "speed_km_s"]) (dget cdict "speed_km_s")
            "speed_km_s" (Option.some (0.001 : ℚ))
          ++ reqNumIssues file (cparts ++ [PathPart.s "fuel_use_per_mkm"])
            (dget cdict "fuel_use_per_mkm") "fuel_use_per_mkm" (Option.some 0) ∧
      (reqNumIssues file (cparts ++ [PathPart.s "speed_km_s"]) (dget cdict "speed_km_s")
          "speed_km_s" (Option.some (0.001 : ℚ)) = []
        ↔ ∃ q, toNum (dget cdict "speed_km_s") = Option.some q ∧ (0.001 : ℚ) ≤ q) ∧
      (reqNumIssues file (cparts ++ [PathPart.s "fuel_use_per_mkm"])
          (dget cdict "fuel_use_per_mkm") "fuel_use_per_mkm" (Option.some 0) = []
        ↔ ∃ q, toNum (dget cdict "fuel_use_per_mkm") = Option.some q ∧ 0 ≤ q) ∧
      (reqNumIssues file (cparts ++ [PathPart.s "speed_km_s"]) (dget cdict "speed_km_s")
          "speed_km_s" (Option.some (0.001 : ℚ))).length ≤ 1 := by
  intro file cparts cdict
  refine ⟨?_, ?_, ?_, ?_⟩
  · rw [← mkRat_thousandth]; rfl
  · exact reqNumIssues_nil_iff file (cparts ++ [PathPart.s "speed_km_s"])
      (dget cdict "speed_km_s") "speed_km_s" (0.001 : ℚ)
  · exact reqNumIssues_nil_iff file (cparts ++ [PathPart.s "fuel_use_per_mkm"])
      (dget cdict "fuel_use_per_mkm") "fuel_use_per_mkm" 0
  · exact reqNumIssues_length_le file (cparts ++ [PathPart.s "speed_km_s"])
      (dget cdict "speed_km_s") "speed_km_s" (Option.some (0.001 : ℚ))

/-- Claim C4.  A tech entry whose id collides with an earlier entry
gets exactly one duplicate-id issue at its id address and triggers
nothing else: the issue list grows by that one issue and both maps
(tech_by_id, tech_index_by_id) are left unchanged, so the entry is
invisible to the reference and cycle passes. -/
theorem duplicate_tech_id_short_circuits :
    ∀ (path : String) (component_ids installation_ids : List String) (st : TechState)
      (i : Nat) (t : PyDict) (tid : String),
      dget t "id" = PyVal.str tid → ¬ tid = "" → hasKey st.tech_by_id tid = true →
      processTech path component_ids installation_ids st (i, PyVal.dict t)
        = { st with issues := st.issues ++
            [⟨path, _json_pointer [PathPart.s "techs", PathPart.i i, PathPart.s "id"],
              "duplicate tech id \x27" ++ tid ++ "\x27"⟩] } := by
  intro path cids iids st i t tid hid hne hdup
  simp [processTech, _require_dict, _require_str, hid, hne, hdup]

theorem duplicate_tech_id_short_circuits_witness :
    processTech "f" [] [] ⟨[], [("a", PyVal.dict [])], [("a", 0)]⟩ (1, PyVal.dict [("id", PyVal.str "a")])
      = ⟨[⟨"f", _json_pointer [PathPart.s "techs", PathPart.i 1, PathPart.s "id"],
          "duplicate tech id \x27a\x27"⟩], [("a", PyVal.dict [])], [("a", 0)]⟩ :=
  duplicate_tech_id_short_circuits "f" [] [] ⟨[], [("a", PyVal.dict [])], [("a", 0)]⟩ 1
    [("id", PyVal.str "a")] "a" rfl (by decide) (by decide)

/-- Claim C6.  For a resource-map entry with a non-empty key the
unknown-key reference check and the non-negative-number value check are
independent: the findings of the entry are the concatenation of the
reference finding (exactly when the key is unknown) and the value
finding (at most one, empty exactly for numbers >= 0); and the map
validator itself is the per-entry concatenation in document order. -/
theorem resource_map_entry_checks :
    ∀ (file : String) (parts : List PathPart) (what : String) (ids : List String)
      (k : String) (amt : PyVal),
      ¬ k = "" →
      (resourceMapEntryIssues file parts what ids k amt
        = (if k ∈ ids then []
           else [⟨file, _json_pointer (parts ++ [PathPart.s k]),
                  "unknown resource \x27" ++ k ++ "\x27"⟩])
          ++ reqNumIssues file (parts ++ [PathPart.s k]) amt
              (what ++ "[\x27" ++ k ++ "\x27]") (Option.some 0)) ∧
      (k ∈ ids → ∀ q, toNum amt = Option.some q → q < 0 →
        resourceMapEntryIssues file parts what ids k amt
          = [⟨file, _json_pointer (parts ++ [PathPart.s k]),
              what ++ "[\x27" ++ k ++ "\x27]" ++ " must be >= " ++ toString (0 : ℚ)⟩]) ∧
      (¬ k ∈ ids → ∀ q, toNum amt = Option.some q → 0 ≤ q →
        resourceMapEntryIssues file parts what ids k amt
          = [⟨file, _json_pointer (parts ++ [PathPart.s k]),
              "unknown resource \x27" ++ k ++ "\x27"⟩]) ∧
      (¬ k ∈ ids →
        resourceMapEntryIssues file parts what ids k amt
          = ⟨file, _json_pointer (parts ++ [PathPart.s k]),
              "unknown resource \x27" ++ k ++ "\x27"⟩
            :: reqNumIssues file (parts ++ [PathPart.s k]) amt
                (what ++ "[\x27" ++ k ++ "\x27]") (Option.some 0)) ∧
      (reqNumIssues file (parts ++ [PathPart.s k]) amt
          (what ++ "[\x27" ++ k ++ "\x27]") (Option.some 0) = []
        ↔ ∃ q, toNum amt = Option.some q ∧ 0 ≤ q) ∧
      (∀ (issues : List ValidationIssue) (m : PyDict),
        _validate_resource_map issues file parts (PyVal.dict m) what ids
          = issues ++ flat (m.map (fun e => resourceMapEntryIssues file parts what ids e.1 e.2))) := by
  intro file parts what ids k amt hne
  have hbase : resourceMapEntryIssues file parts what ids k amt
      = (if k ∈ ids then []
         else [⟨file, _json_pointer (parts ++ [PathPart.s k]),
                "unknown resource \x27" ++ k ++ "\x27"⟩])
        ++ reqNumIssues file (parts ++ [PathPart.s k]) amt
            (what ++ "[\x27" ++ k ++ "\x27]") (Option.some 0) := by
    unfold resourceMapEntryIssues
    rw [if_neg hne]
  refine ⟨hbase, ?_, ?_, ?_, ?_, ?_⟩
  · intro hk q hq hlt
    rw [hbase, if_pos hk, reqNumIssues_eq, hq]
    simp [hlt]
  · intro hk q hq hle
    rw [hbase, if_neg hk, reqNumIssues_eq, hq]
    simp [not_lt.mpr hle]
  · intro hk
    rw [hbase, if_neg hk]
    rfl
  · exact reqNumIssues_nil_iff file (parts ++ [PathPart.s k]) amt
      (what ++ "[\x27" ++ k ++ "\x27]") 0
  · intro issues m
    unfold _validate_resource_map _require_dict
    exact foldl_append_flat (fun e => resourceMapEntryIssues file parts what ids e.1 e.2) m issues

theorem resource_map_entry_checks_witness :
    resourceMapEntryIssues "f" [PathPart.s "produces"] "produces" ["iron"] "iron" (PyVal.int (-2))
      = [⟨"f", _json_pointer [PathPart.s "produces", PathPart.s "iron"],
          "produces" ++ "[\x27" ++ "iron" ++ "\x27]" ++ " must be >= " ++ toString (0 : ℚ)⟩] ∧
    resourceMapEntryIssues "f" [PathPart.s "produces"] "produces" ["iron"] "gold" (PyVal.int 3)
      = [⟨"f", _json_pointer [PathPart.s "produces", PathPart.s "gold"],
          "unknown resource \x27" ++ "gold" ++ "\x27"⟩] ∧
    resourceMapEntryIssues "f" [PathPart.s "produces"] "produces" ["iron"] "gold" (PyVal.int (-2))
      = ⟨"f", _json_pointer [PathPart.s "produces", PathPart.s "gold"],
          "unknown resource \x27" ++ "gold" ++ "\x27"⟩
        :: reqNumIssues "f" [PathPart.s "produces", PathPart.s "gold"] (PyVal.int (-2))
            ("produces" ++ "[\x27" ++ "gold" ++ "\x27]") (Option.some 0) :=
  ⟨(resource_map_entry_checks "f" [PathPart.s "produces"] "produces" ["iron"] "iron"
      (PyVal.int (-2)) (by decide)).2.1 (by decide) (-2) rfl (by norm_num),
   (resource_map_entry_checks "f" [PathPart.s "produces"] "produces" ["iron"] "gold"
      (PyVal.int 3) (by decide)).2.2.1 (by decide) 3 rfl (by norm_num),
   (resource_map_entry_checks "f" [PathPart.s "produces"] "produces" ["iron"] "gold"
      (PyVal.int (-2)) (by decide)).2.2.2.1 (by decide)⟩

/-! Claims C1, C8, C10. -/

/-- The tech map the schema pass builds from techDocDiamond. -/
def techMapDiamond : PyDict :=
  [("a", PyVal.dict [("id", PyVal.str "a"), ("name", PyVal.str "Alpha"), ("cost", PyVal.int 0),
                     ("prereqs", PyVal.list []), ("effects", PyVal.list [])]),
   ("b", PyVal.dict [("id", PyVal.str "b"), ("name", PyVal.str "Beta"), ("cost", PyVal.int 0),
                     ("prereqs", PyVal.list [PyVal.str "a"]), ("effects", PyVal.list [])]),
   ("c", PyVal.dict [("id", PyVal.str "c"), ("name", PyVal.str "Gamma"), ("cost", PyVal.int 0),
                     ("prereqs", PyVal.list [PyVal.str "a"]), ("effects", PyVal.list [])]),
   ("d", PyVal.dict [("id", PyVal.str "d"), ("name", PyVal.str "Delta"), ("cost", PyVal.int 0),
                     ("prereqs", PyVal.list [PyVal.str "b", PyVal.str "c"]),
                     ("effects", PyVal.list [])])]

/-- Rank function witnessing that the prerequisite edges of the diamond
always step down. -/
def rankDiamond (x : String) : Nat :=
  if x = "d" then 2 else if x = "b" ∨ x = "c" then 1 else 0

theorem diamond_acyclic : AcyclicTech techMapDiamond := by
  have hrank : ∀ x y, TechEdge techMapDiamond x y → rankDiamond y < rankDiamond x := by
    intro x y h
    unfold TechEdge at h
    by_cases h1 : x = "a"
    · subst h1
      have hc : dfsChildren techMapDiamond "a" = [] := by decide
      rw [hc] at h
      exact absurd h (List.not_mem_nil y)
    · by_cases h2 : x = "b"
      · subst h2
        have hc : dfsChildren techMapDiamond "b" = ["a"] := by decide
        rw [hc] at h
        simp only [List.mem_singleton] at h
        subst h
        decide
      · by_cases h3 : x = "c"
        · subst h3
          have hc : dfsChildren techMapDiamond "c" = ["a"] := by decide
          rw [hc] at h
          simp only [List.mem_singleton] at h
          subst h
          decide
        · by_cases h4 : x = "d"
          · subst h4
            have hc : dfsChildren techMapDiamond "d" = ["b", "c"] := by decide
            rw [hc] at h
            simp only [List.mem_cons, List.not_mem_nil, or_false] at h
            rcases h with h | h <;> subst h <;> simp [rankDiamond]
          · unfold dfsChildren at h
            simp only [techMapDiamond, lookupEntry, if_neg h1, if_neg h2, if_neg h3, if_neg h4] at h
            exact absurd h (List.not_mem_nil y)
  have hdesc : ∀ a b, Relation.TransGen (TechEdge techMapDiamond) a b →
      rankDiamond b < rankDiamond a := by
    intro a b h
    induction h with
    | single he => exact hrank _ _ he
    | tail _ he ih => exact lt_trans (hrank _ _ he) ih
  intro t ht
  exact absurd (hdesc t t ht) (lt_irrefl _)

/-- Claim C1.  The cycle pass of validate_tech_tree emits no issue on
any tech map whose restricted prerequisite relation is acyclic; on the
three-tech cycle a→b→c→a the whole loader emits exactly the one cycle
issue, whose message is the stack from the repeated id back to itself
joined by the arrow separator; and the diamond DAG document validates
with no issue at all. -/
theorem cycle_pass_behaviour :
    (∀ (path : String) (g : PyDict) (fuel : Nat) (issues : List ValidationIssue),
      AcyclicTech g → cycleDetect path g fuel issues = issues) ∧
    validate_tech_tree "r" (FileInput.parsed techDocCycle) [] [] []
      = [⟨techTreePath "r", "", "tech prereq cycle detected: " ++ joinArrow ["a", "b", "c", "a"]⟩] ∧
    validate_tech_tree "r" (FileInput.parsed techDocDiamond) [] [] [] = [] := by
  refine ⟨fun path g fuel issues hac => cycleDetect_of_acyclic path g hac fuel issues, ?_, ?_⟩
  · decide
  · decide

theorem cycle_pass_behaviour_witness :
    cycleDetect "f" techMapDiamond 6 [] = [] :=
  cycle_pass_behaviour.1 "f" techMapDiamond 6 [] diamond_acyclic

/-- Claim C8.  The DFS terminates on every finite tech map, cyclic ones
included: above the node-count fuel bound the cycle pass is independent
of the fuel (so the unbounded Python recursion needs only finitely many
nested calls); a node already in the visited set returns immediately
with the state untouched; and a node on the active stack returns
immediately after appending the one cycle issue. -/
theorem dfs_terminates :
    (∀ (path : String) (g : PyDict) (f₁ f₂ : Nat) (issues : List ValidationIssue),
      (keysOf g).length + 1 ≤ f₁ → (keysOf g).length + 1 ≤ f₂ →
      cycleDetect path g f₁ issues = cycleDetect path g f₂ issues) ∧
    (∀ (path : String) (g : PyDict) (fuel : Nat) (tid : String) (stack : List String)
      (st : DfsState), tid ∈ st.visited → dfsGo path g (fuel + 1) tid stack st = st) ∧
    (∀ (path : String) (g : PyDict) (fuel : Nat) (tid : String) (stack : List String)
      (st : DfsState), ¬ tid ∈ st.visited → tid ∈ st.visiting →
      dfsGo path g (fuel + 1) tid stack st
        = { st with issues := st.issues ++ [⟨path, "", cycleMsg stack tid⟩] }) := by
  refine ⟨cycleDetect_fuel_indep, ?_, ?_⟩
  · intro path g fuel tid stack st h
    simp [dfsGo, h]
  · intro path g fuel tid stack st h1 h2
    simp [dfsGo, h1, h2]

theorem dfs_terminates_witness :
    cycleDetect "f" techMapCycle 4 [] = cycleDetect "f" techMapCycle 9 [] ∧
    dfsGo "f" techMapCycle 3 "a" [] ⟨[], ["a"], []⟩ = ⟨[], ["a"], []⟩ ∧
    dfsGo "f" techMapCycle 3 "a" ["b", "a"] ⟨["b", "a"], [], []⟩
      = ⟨["b", "a"], [], [⟨"f", "", cycleMsg ["b", "a"] "a"⟩]⟩ :=
  ⟨dfs_terminates.1 "f" techMapCycle 4 9 [] (by decide) (by decide),
   dfs_terminates.2.1 "f" techMapCycle 2 "a" [] ⟨[], ["a"], []⟩ (by decide),
   dfs_terminates.2.2 "f" techMapCycle 2 "a" ["b", "a"] ⟨["b", "a"], [], []⟩
     (by decide) (by decide)⟩

/-- Claim C10.  Whatever issues the cycle pass adds to its input all
carry an empty pointer; an issue with an empty pointer formats without
a colon-pointer segment, while any issue with a non-empty pointer (as
the shape, reference and uniqueness checks produce) formats with it. -/
theorem cycle_issue_empty_pointer :
    (∀ (path : String) (g : PyDict) (fuel : Nat) (issues : List ValidationIssue)
      (i : ValidationIssue), i ∈ cycleDetect path g fuel issues → i ∈ issues ∨ i.pointer = "") ∧
    (∀ (i : ValidationIssue) (root : String), i.pointer = "" →
      ValidationIssue.format i root = stripRoot root i.file ++ ": " ++ i.message) ∧
    (∀ (i : ValidationIssue) (root : String), ¬ i.pointer = "" →
      ValidationIssue.format i root
        = stripRoot root i.file ++ ":" ++ i.pointer ++ ": " ++ i.message) := by
  refine ⟨cycleDetect_pointer, ?_, ?_⟩
  · intro i root h
    simp [ValidationIssue.format, h]
  · intro i root h
    simp [ValidationIssue.format, h]

theorem cycle_issue_empty_pointer_witness :
    ((⟨"f", "", "tech prereq cycle detected: a -> b -> c -> a"⟩ : ValidationIssue)
        ∈ ([] : List ValidationIssue) ∨
      (⟨"f", "", "tech prereq cycle detected: a -> b -> c -> a"⟩ : ValidationIssue).pointer = "") ∧
    ValidationIssue.format ⟨"f", "", "m"⟩ "r" = stripRoot "r" "f" ++ ": " ++ "m" ∧
    ValidationIssue.format ⟨"f", "/t", "m"⟩ "r" = stripRoot "r" "f" ++ ":" ++ "/t" ++ ": " ++ "m" :=
  ⟨cycle_issue_empty_pointer.1 "f" techMapCycle 5 []
      ⟨"f", "", "tech prereq cycle detected: a -> b -> c -> a"⟩ (by decide),
   cycle_issue_empty_pointer.2.1 ⟨"f", "", "m"⟩ "r" rfl,
   cycle_issue_empty_pointer.2.2 ⟨"f", "/t", "m"⟩ "r" (by decide)⟩

/-! Claims C5, C2, C9. -/

theorem mem_ite_nil {c : Prop} [Decidable c] {l : List ValidationIssue} {i : ValidationIssue}
    (h : i ∈ (if c then l else [])) : i ∈ l := by
  by_cases hc : c
  · rwa [if_pos hc] at h
  · rw [if_neg hc] at h
    exact absurd h (List.not_mem_nil i)

/-- Claim C5.  A weapon with none of the beam / missile / point-defense
key groups present yields exactly the one must-define issue; with at
least one group key present, that issue is never emitted and the
output is exactly the validation of the whole field
set of each present group, so a missing sibling inside a present group (for instance damage
when only weapon_range_mkm is given) is itself reported. -/
theorem weapon_group_checks :
    ∀ (file : String) (cparts : List PathPart) (cdict : PyDict),
      componentTypeChecks file cparts (Option.some "weapon") cdict
        = weaponChecks file cparts cdict ∧
      (hasKey cdict "damage" = false → hasKey cdict "weapon_range_mkm" = false →
       hasKey cdict "missile_damage" = false → hasKey cdict "missile_range_mkm" = false →
       hasKey cdict "point_defense_damage" = false →
       hasKey cdict "point_defense_range_mkm" = false →
        weaponChecks file cparts cdict
          = [⟨file, _json_pointer cparts, "weapon must define beam/missile/point-defense fields"⟩]) ∧
      (((hasKey cdict "damage" || hasKey cdict "weapon_range_mkm")
          || (hasKey cdict "missile_damage" || hasKey cdict "missile_range_mkm")
          || (hasKey cdict "point_defense_damage" || hasKey cdict "point_defense_range_mkm"))
          = true →
        weaponChecks file cparts cdict
          = (if hasKey cdict "damage" || hasKey cdict "weapon_range_mkm" then
              reqNumIssues file (cparts ++ [PathPart.s "damage"]) (dget cdict "damage")
                "damage" (Option.some 0)
              ++ reqNumIssues file (cparts ++ [PathPart.s "weapon_range_mkm"])
                (dget cdict "weapon_range_mkm") "weapon_range_mkm" (Option.some 0)
             else [])
            ++ (if hasKey cdict "missile_damage" || hasKey cdict "missile_range_mkm" then
              reqNumIssues file (cparts ++ [PathPart.s "missile_damage"])
                (dget cdict "missile_damage") "missile_damage" (Option.some 0)
              ++ reqNumIssues file (cparts ++ [PathPart.s "missile_range_mkm"])
                (dget cdict "missile_range_mkm") "missile_range_mkm" (Option.some 0)
              ++ reqNumIssues file (cparts ++ [PathPart.s "missile_speed_mkm_per_day"])
                (dget cdict "missile_speed_mkm_per_day") "missile_speed_mkm_per_day" (Option.some 0)
              ++ reqIntIssues file (cparts ++ [PathPart.s "missile_reload_days"])
                (dget cdict "missile_reload_days") "missile_reload_days" (Option.some 0)
              ++ reqIntIssues file (cparts ++ [PathPart.s "missile_ammo"])
                (dget cdict "missile_ammo") "missile_ammo" (Option.some 0)
             else [])
            ++ (if hasKey cdict "point_defense_damage" || hasKey cdict "point_defense_range_mkm" then
              reqNumIssues file (cparts ++ [PathPart.s "point_defense_damage"])
                (dget cdict "point_defense_damage") "point_defense_damage" (Option.some 0)
              ++ reqNumIssues file (cparts ++ [PathPart.s "point_defense_range_mkm"])
                (dget cdict "point_defense_range_mkm") "point_defense_range_mkm" (Option.some 0)
             else [])) ∧
      (((hasKey cdict "damage" || hasKey cdict "weapon_range_mkm")
          || (hasKey cdict "missile_damage" || hasKey cdict "missile_range_mkm")
          || (hasKey cdict "point_defense_damage" || hasKey cdict "point_defense_range_mkm"))
          = true →
        ∀ i ∈ weaponChecks file cparts cdict,
          ¬ i = ⟨file, _json_pointer cparts, "weapon must define beam/missile/point-defense fields"⟩) ∧
      ((hasKey cdict "damage" || hasKey cdict "weapon_range_mkm") = true →
       hasKey cdict "damage" = false →
        (⟨file, _json_pointer (cparts ++ [PathPart.s "damage"]), "damage must be a number"⟩
            : ValidationIssue)
          ∈ weaponChecks file cparts cdict) := by
  intro file cparts cdict
  have hout : ((hasKey cdict "damage" || hasKey cdict "weapon_range_mkm")
      || (hasKey cdict "missile_damage" || hasKey cdict "missile_range_mkm")
      || (hasKey cdict "point_defense_damage" || hasKey cdict "point_defense_range_mkm"))
      = true →
      weaponChecks file cparts cdict
        = (if hasKey cdict "damage" || hasKey cdict "weapon_range_mkm" then
            reqNumIssues file (cparts ++ [PathPart.s "damage"]) (dget cdict "damage")
              "damage" (Option.some 0)
            ++ reqNumIssues file (cparts ++ [PathPart.s "weapon_range_mkm"])
              (dget cdict "weapon_range_mkm") "weapon_range_mkm" (Option.some 0)
           else [])
          ++ (if hasKey cdict "missile_damage" || hasKey cdict "missile_range_mkm" then
            reqNumIssues file (cparts ++ [PathPart.s "missile_damage"])
              (dget cdict "missile_damage") "missile_damage" (Option.some 0)
            ++ reqNumIssues file (cparts ++ [PathPart.s "missile_range_mkm"])
              (dget cdict "missile_range_mkm") "missile_range_mkm" (Option.some 0)
            ++ reqNumIssues file (cparts ++ [PathPart.s "missile_speed_mkm_per_day"])
              (dget cdict "missile_speed_mkm_per_day") "missile_speed_mkm_per_day" (Option.some 0)
            ++ reqIntIssues file (cparts ++ [PathPart.s "missile_reload_days"])
              (dget cdict "missile_reload_days") "missile_reload_days" (Option.some 0)
            ++ reqIntIssues file (cparts ++ [PathPart.s "missile_ammo"])
              (dget cdict "missile_ammo") "missile_ammo" (Option.some 0)
           else [])
          ++ (if hasKey cdict "point_defense_damage" || hasKey cdict "point_defense_range_mkm" then
            reqNumIssues file (cparts ++ [PathPart.s "point_defense_damage"])
              (dget cdict "point_defense_damage") "point_defense_damage" (Option.some 0)
            ++ reqNumIssues file (cparts ++ [PathPart.s "point_defense_range_mkm"])
              (dget cdict "point_defense_range_mkm") "point_defense_range_mkm" (Option.some 0)
           else []) := by
    intro hg
    have hg2 : (!((hasKey cdict "damage" || hasKey cdict "weapon_range_mkm")
        || (hasKey cdict "missile_damage" || hasKey cdict "missile_range_mkm")
        || (hasKey cdict "point_defense_damage" || hasKey cdict "point_defense_range_mkm")))
        = false := by rw [hg]; rfl
    unfold weaponChecks
    simp only [hg2]
    simp
  refine ⟨rfl, ?_, hout, ?_, ?_⟩
  · intro h1 h2 h3 h4 h5 h6
    simp [weaponChecks, h1, h2, h3, h4, h5, h6]
  · intro hg i hi
    rw [hout hg] at hi
    rcases List.mem_append.mp hi with hi | hi
    · rcases List.mem_append.mp hi with hi | hi
      · rcases List.mem_append.mp (mem_ite_nil hi) with hi | hi
        · exact mem_reqNum_ne_parent file cparts (PathPart.s "damage") _ _ _ i hi file _
        · exact mem_reqNum_ne_parent file cparts (PathPart.s "weapon_range_mkm") _ _ _ i hi file _
      · have hi2 := mem_ite_nil hi
        rcases List.mem_append.mp hi2 with hi | hi
        · rcases List.mem_append.mp hi with hi | hi
          · rcases List.mem_append.mp hi with hi | hi
            · rcases List.mem_append.mp hi with hi | hi
              · exact mem_reqNum_ne_parent file cparts (PathPart.s "missile_damage") _ _ _ i hi file _
              · exact mem_reqNum_ne_parent file cparts (PathPart.s "missile_range_mkm") _ _ _ i hi file _
            · exact mem_reqNum_ne_parent file cparts (PathPart.s "missile_speed_mkm_per_day") _ _ _ i hi file _
          · exact mem_reqInt_ne_parent file cparts (PathPart.s "missile_reload_days") _ _ _ i hi file _
        · exact mem_reqInt_ne_parent file cparts (PathPart.s "missile_ammo") _ _ _ i hi file _
    · rcases List.mem_append.mp (mem_ite_nil hi) with hi | hi
      · exact mem_reqNum_ne_parent file cparts (PathPart.s "point_defense_damage") _ _ _ i hi file _
      · exact mem_reqNum_ne_parent file cparts (PathPart.s "point_defense_range_mkm") _ _ _ i hi file _
  · intro hb hd
    have hg : ((hasKey cdict "damage" || hasKey cdict "weapon_range_mkm")
        || (hasKey cdict "missile_damage" || hasKey cdict "missile_range_mkm")
        || (hasKey cdict "point_defense_damage" || hasKey cdict "point_defense_range_mkm"))
        = true := by rw [hb]; rfl
    rw [hout hg]
    apply List.mem_append_left
    apply List.mem_append_left
    rw [if_pos (by rw [hb])]
    apply List.mem_append_left
    rw [dget_of_not_hasKey cdict "damage" hd]
    exact List.mem_singleton_self _

theorem weapon_group_checks_witness :
    componentTypeChecks "p" [PathPart.s "components", PathPart.s "w1"] (Option.some "weapon") []
      = weaponChecks "p" [PathPart.s "components", PathPart.s "w1"] [] ∧
    weaponChecks "p" [PathPart.s "components", PathPart.s "w1"] []
      = [⟨"p", _json_pointer [PathPart.s "components", PathPart.s "w1"],
          "weapon must define beam/missile/point-defense fields"⟩] ∧
    (⟨"p", _json_pointer ([PathPart.s "components", PathPart.s "w1"] ++ [PathPart.s "damage"]),
        "damage must be a number"⟩ : ValidationIssue)
      ∈ weaponChecks "p" [PathPart.s "components", PathPart.s "w1"]
          [("weapon_range_mkm", PyVal.int 5)] :=
  ⟨(weapon_group_checks "p" [PathPart.s "components", PathPart.s "w1"] []).1,
   (weapon_group_checks "p" [PathPart.s "components", PathPart.s "w1"] []).2.1
      rfl rfl rfl rfl rfl rfl,
   (weapon_group_checks "p" [PathPart.s "components", PathPart.s "w1"]
      [("weapon_range_mkm", PyVal.int 5)]).2.2.2.2 (by decide) (by decide)⟩

/-- Claim C2.  A missing or unparsable resources file records exactly
one issue for that file and returns no catalog; in either case
validate_all then still runs the blueprint, tech-tree and settings
loaders, forwarding the empty resource-id set; and against an empty id
set every non-empty resource key in a cost/production map is reported
as an unresolved reference. -/
theorem missing_resources_still_runs_rest :
    (∀ (root : String) (issues : List ValidationIssue),
      validate_resources root FileInput.missing issues
        = (issues ++ [⟨resourcesPath root, "", "file not found"⟩], Option.none) ∧
      ∀ e, validate_resources root (FileInput.parseError e) issues
        = (issues ++ [⟨resourcesPath root, "", "failed to parse JSON: " ++ e⟩], Option.none)) ∧
    (∀ (root : String) (w : World), w.resources = FileInput.missing →
      validate_all root w
        = (let bl := validate_blueprints root w.blueprints w.fileExists []
              [⟨resourcesPath root, "", "file not found"⟩]
           let component_ids :=
             match bl.2.1 with
             | Option.some c => keysOf c
             | Option.none => []
           let installation_ids :=
             match bl.2.2 with
             | Option.some c => keysOf c
             | Option.none => []
           validate_settings root w.settings
             (validate_tech_tree root w.techTree component_ids installation_ids bl.1))) ∧
    (∀ (root : String) (w : World) (e : String), w.resources = FileInput.parseError e →
      validate_all root w
        = (let bl := validate_blueprints root w.blueprints w.fileExists []
              [⟨resourcesPath root, "", "failed to parse JSON: " ++ e⟩]
           let component_ids :=
             match bl.2.1 with
             | Option.some c => keysOf c
             | Option.none => []
           let installation_ids :=
             match bl.2.2 with
             | Option.some c => keysOf c
             | Option.none => []
           validate_settings root w.settings
             (validate_tech_tree root w.techTree component_ids installation_ids bl.1))) ∧
    (∀ (file : String) (parts : List PathPart) (what : String) (k : String) (amt : PyVal),
      ¬ k = "" →
      (⟨file, _json_pointer (parts ++ [PathPart.s k]), "unknown resource \x27" ++ k ++ "\x27"⟩
          : ValidationIssue)
        ∈ resourceMapEntryIssues file parts what [] k amt) := by
  refine ⟨fun root issues => ⟨rfl, fun e => rfl⟩, ?_, ?_, ?_⟩
  · intro root w h
    obtain ⟨res, bl, tt, se, fe⟩ := w
    simp only at h
    subst h
    rfl
  · intro root w e h
    obtain ⟨res, bl, tt, se, fe⟩ := w
    simp only at h
    subst h
    rfl
  · intro file parts what k amt hne
    unfold resourceMapEntryIssues
    rw [if_neg hne]
    apply List.mem_append_left
    rw [if_neg (List.not_mem_nil k)]
    exact List.mem_singleton_self _

theorem missing_resources_still_runs_rest_witness :
    validate_resources "r" FileInput.missing []
      = ([⟨resourcesPath "r", "", "file not found"⟩], Option.none) ∧
    validate_resources "r" (FileInput.parseError "bad") []
      = ([⟨resourcesPath "r", "", "failed to parse JSON: bad"⟩], Option.none) ∧
    validate_all "r" worldW =
      [⟨resourcesPath "r", "", "file not found"⟩,
       ⟨blueprintsPath "r", "/installations/mine/produces/titanium",
        "unknown resource \x27titanium\x27"⟩,
       ⟨techTreePath "r", "", "file not found"⟩,
       ⟨settingsPath "r", "", "file not found"⟩] ∧
    validate_all "r" worldWP =
      [⟨resourcesPath "r", "", "failed to parse JSON: bad"⟩,
       ⟨blueprintsPath "r", "/installations/mine/produces/titanium",
        "unknown resource \x27titanium\x27"⟩,
       ⟨techTreePath "r", "", "file not found"⟩,
       ⟨settingsPath "r", "", "file not found"⟩] ∧
    (⟨blueprintsPath "r",
        _json_pointer ([PathPart.s "installations", PathPart.s "mine", PathPart.s "produces"]
          ++ [PathPart.s "titanium"]),
        "unknown resource \x27titanium\x27"⟩ : ValidationIssue)
      ∈ resourceMapEntryIssues (blueprintsPath "r")
          [PathPart.s "installations", PathPart.s "mine", PathPart.s "produces"] "produces" []
          "titanium" (PyVal.int 1) :=
  ⟨by simpa using (missing_resources_still_runs_rest.1 "r" []).1,
   by simpa using (missing_resources_still_runs_rest.1 "r" []).2 "bad",
   ((missing_resources_still_runs_rest.2.1 "r" worldW rfl).trans (by decide)),
   ((missing_resources_still_runs_rest.2.2.1 "r" worldWP "bad" rfl).trans (by decide)),
   missing_resources_still_runs_rest.2.2.2 (blueprintsPath "r")
     [PathPart.s "installations", PathPart.s "mine", PathPart.s "produces"] "produces"
     "titanium" (PyVal.int 1) (by decide)⟩

/-- Append-only loops over pairs: the issue component of the fold is
the input followed by the per-entry blocks in traversal order. -/
theorem foldl_pair_append_flat (f : α → List β) (g : γ → α → γ) :
    ∀ (l : List α) (st : List β × γ),
      (l.foldl (fun st e => (st.1 ++ f e, g st.2 e)) st).1 = st.1 ++ flat (l.map f) := by
  intro l
  induction l with
  | nil => intro st; simp [flat]
  | cons x xs ih => intro st; simp [List.foldl_cons, ih, flat, List.append_assoc]

/-- Claim C9.  validate_all is a pure function of the parsed inputs (two
runs over the same world give the same issue sequence), and the
component and installation loops emit their per-entry findings as a
concatenation in the insertion order of the documents — nothing is re-sorted. -/
theorem validate_all_deterministic :
    (∀ (root : String) (w : World), validate_all root w = validate_all root w) ∧
    (∀ (path : String) (comps : PyDict) (issues : List ValidationIssue),
      (componentsPass path comps issues).1
        = issues ++ flat (comps.map (fun e => componentEntryIssues path e.1 e.2))) ∧
    (∀ (path : String) (resource_ids : List String) (insts : PyDict)
      (issues : List ValidationIssue),
      (installationsPass path resource_ids insts issues).1
        = issues ++ flat (insts.map (fun e => installationEntryIssues path resource_ids e.1 e.2))) := by
  refine ⟨fun root w => rfl, ?_, ?_⟩
  · intro path comps issues
    exact foldl_pair_append_flat (fun e => componentEntryIssues path e.1 e.2)
      (fun c e => componentEntryAdd c e.1 e.2) comps (issues, [])
  · intro path resource_ids insts issues
    exact foldl_pair_append_flat (fun e => installationEntryIssues path resource_ids e.1 e.2)
      (fun c e => installationEntryAdd c e.1 e.2) insts (issues, [])
